import Mathlib

/-!
Verification of the meal-planning backend (suggestion engine, week-plan
resolver, shopping-list aggregator).

The embedding follows the TypeScript sources:
  src/services/suggestion.ts  (scoreRecipe, generateSuggestion,
                               getTodaySuggestion, acceptSuggestion,
                               rejectSuggestion)
  src/services/weather.ts     (getWeatherTags)
  src/index.ts                (GET /api/weekplan resolver, PUT /api/weekplan/:date)
  src/api/shopping.ts         (normalizeIngredientName, mergeIngredients,
                               categorizeIngredient, GET /api/shopping)

Modelling conventions:
  - SQLite rows are Lean structures; a table is a list of rows in insertion
    (rowid) order; inserts append at the end.
  - Timestamps are natural numbers counted in minutes, so one calendar day
    is 1440 units; YYYY-MM-DD date strings stay strings.
  - JS numbers appearing as ingredient amounts are modelled as integers:
    the merge logic only tests them for null and adds them, so the numeric
    type is otherwise irrelevant.
  - Math.random-driven choices are explicit parameters (a pick index, a
    jitter function), as the spec itself recommends (seedable random source).
  - JSON-blob columns (reason, weatherData) are carried as strings; the
    score-breakdown serialization is reproduced verbatim.
-/

namespace Recipes

/-- Season tags, derived from the calendar month (weather.ts). -/
inductive Season
  | lente | zomer | herfst | winter
deriving DecidableEq, Repr

/-- Weather tags derived from a snapshot (weather.ts getWeatherTags). -/
inductive WeatherTag
  | koud | warm | regenachtig | zonnig
deriving DecidableEq, Repr

/-- Suggestion lifecycle status (schema: pending, accepted, rejected, cleared). -/
inductive SugStatus
  | pending | accepted | rejected | cleared
deriving DecidableEq, Repr

/-- Weather snapshot as returned by getCurrentWeather (weather.ts). -/
structure WeatherSnapshot where
  temp : Int
  feelsLike : Int
  condition : String
  description : String
  humidity : Int
  windSpeed : Int
  icon : String
deriving DecidableEq, Repr

/-- One ingredient line of a recipe (schema Ingredient: name, optional
amount, optional unit, scalable flag). -/
structure Ingredient where
  name : String
  amount : Option Int
  unit : Option String
  scalable : Bool := true
deriving DecidableEq, Repr

/-- A recipe row. The seasons and weatherTags JSON columns are modelled
already parsed (scoreRecipe parses them with an empty-list fallback). -/
structure Recipe where
  id : Nat
  name : String
  category : String
  ingredients : List Ingredient
  seasons : List Season
  weatherTags : List WeatherTag
  defaultServings : Nat := 2
  imageUrl : Option String := none
deriving DecidableEq, Repr

/-- A meal-history row (schema mealHistory). -/
structure MealHistoryEntry where
  id : Nat
  recipeId : Nat
  eatenAt : Nat
  servings : Nat := 2
deriving DecidableEq, Repr

/-- A suggestion row (schema suggestions). reason and weatherData are the
serialized JSON blobs stored in the row. -/
structure Suggestion where
  id : Nat
  recipeId : Nat
  suggestedFor : String
  status : SugStatus
  reason : String
  weatherData : String
  createdAt : Nat
deriving DecidableEq, Repr

/-- A week-plan row (schema weekPlan); recipeId is nullable (cleared days),
the weather columns are the cached snapshot fields. -/
structure WeekPlanEntry where
  date : String
  recipeId : Option Nat
  cleared : Bool
  temp : Option Int
  icon : Option String
  description : Option String
  createdAt : Nat
deriving DecidableEq, Repr

/-- The persistent state: the four tables plus the auto-increment counters
used when inserting suggestion and meal-history rows. -/
structure Db where
  recipes : List Recipe
  suggestions : List Suggestion
  mealHistory : List MealHistoryEntry
  weekPlan : List WeekPlanEntry
  nextSuggestionId : Nat := 1
  nextHistoryId : Nat := 1
deriving DecidableEq, Repr

/-- One calendar day in the minute-based timestamp model. -/
def minutesPerDay : Nat := 1440

/-! ### Character-list string helpers

String.includes, toLowerCase, trim and the whitespace-collapsing regex of
the source are modelled on the underlying character lists (ASCII-faithful:
JS trim and the regex \s additionally cover rare Unicode whitespace, which
none of the fixed keyword tables use). -/

/-- Whitespace test used for trim and for the whitespace-collapsing regex. -/
def isWsChar (c : Char) : Bool := c == ' ' || c == '\t' || c == '\n' || c == '\r'

/-- JS String.prototype.toLowerCase, character by character. -/
def lowerList (s : List Char) : List Char := s.map Char.toLower

/-- JS String.prototype.trim: drop leading and trailing whitespace. -/
def trimList (s : List Char) : List Char :=
  ((s.dropWhile isWsChar).reverse.dropWhile isWsChar).reverse

/-- The regex replace of each whitespace run by a single space
(name.replace of the pattern backslash-s-plus with a space). -/
def collapseWs : List Char → List Char
  | [] => []
  | c :: rest =>
    if isWsChar c then
      match collapseWs rest with
      | [] => [' ']
      | d :: ds => if d == ' ' then ' ' :: ds else ' ' :: d :: ds
    else c :: collapseWs rest

/-- JS String.prototype.includes: contiguous substring test. -/
def includesSub (hay needle : List Char) : Bool :=
  hay.tails.any (fun t => needle.isPrefixOf t)

/-- Lowercase a whole string (JS toLowerCase), staying on String. -/
def jsToLower (s : String) : String := (lowerList s.toList).asString

/-- Code-point lexicographic strict order on character lists. -/
def strLt : List Char → List Char → Bool
  | _, [] => false
  | [], _ :: _ => true
  | a :: as, b :: bs =>
    if a.toNat < b.toNat then true
    else if b.toNat < a.toNat then false
    else strLt as bs

/-- Code-point lexicographic order on strings, the comparator both sort
sites of the shopping handler reduce to on the data they sort: date keys
are plain YYYY-MM-DD digits-and-hyphens, where JS localeCompare agrees
with code-point order, and the Dutch-collation item sort only needs to be
some fixed total order for the claims here. -/
def strLeB (a b : String) : Bool := !(strLt b.toList a.toList)

/-! ### getWeatherTags and getCurrentSeason (weather.ts) -/

/-- Derive weather tags from a snapshot: temp below 10 is koud, above 20 is
warm, a rain/drizzle/thunder condition is regenachtig, a clear/sun condition
or the exact condition clouds is zonnig (weather.ts getWeatherTags). -/
def getWeatherTags (weather : WeatherSnapshot) : List WeatherTag :=
  let tags₁ : List WeatherTag := if weather.temp < 10 then [.koud] else []
  let tags₂ : List WeatherTag := tags₁ ++ (if weather.temp > 20 then [.warm] else [])
  let condition := lowerList weather.condition.toList
  let tags₃ : List WeatherTag := tags₂ ++
    (if includesSub condition "rain".toList || includesSub condition "drizzle".toList ||
        includesSub condition "thunder".toList then [.regenachtig] else [])
  tags₃ ++
    (if includesSub condition "clear".toList || includesSub condition "sun".toList ||
        condition = "clouds".toList then [.zonnig] else [])

/-- Season from the 1-based month (weather.ts getCurrentSeason). -/
def getCurrentSeason (month : Nat) : Season :=
  if 3 ≤ month ∧ month ≤ 5 then .lente
  else if 6 ≤ month ∧ month ≤ 8 then .zomer
  else if 9 ≤ month ∧ month ≤ 11 then .herfst
  else .winter

/-! ### scoreRecipe (suggestion.ts lines 30-68) -/

/-- The score breakdown stored in a suggestion reason
(seasonScore, weatherScore, recencyScore). -/
structure ScoreBreakdown where
  seasonScore : Nat
  weatherScore : Nat
  recencyScore : Nat
deriving DecidableEq, Repr

/-- Total score: the sum of the three components. -/
def ScoreBreakdown.total (b : ScoreBreakdown) : Nat :=
  b.seasonScore + b.weatherScore + b.recencyScore

/-- scoreRecipe from suggestion.ts. daysSinceEaten is the value the source
computes from meal history (999 when the recipe was never eaten); it is a
parameter here, matching the claims, and derived from the tables in
getDaysSinceEaten below where the callers need it. -/
def scoreRecipe (recipe : Recipe) (currentSeason : Season)
    (weatherTags : List WeatherTag) (daysSinceEaten : Nat) : ScoreBreakdown :=
  let seasonScore : Nat :=
    if recipe.seasons.length > 0 then
      (if recipe.seasons.contains currentSeason then 30 else 5)
    else 15
  let weatherScore : Nat :=
    if recipe.weatherTags.length > 0 then
      min 30 ((recipe.weatherTags.filter (fun t => weatherTags.contains t)).length * 15)
    else 10
  let recencyScore : Nat :=
    if daysSinceEaten ≥ 14 then 40
    else if daysSinceEaten ≥ 7 then 30
    else if daysSinceEaten ≥ 3 then 15
    else 0
  ⟨seasonScore, weatherScore, recencyScore⟩

/-! ### Spec-side score formula (claim C1)

These definitions follow the words of the specification, to be compared
with scoreRecipe above. -/

/-- Spec wording: 30 if the season tags include the current season, 5 if
there are season tags but none match, 15 if there are no season tags. -/
def seasonScoreSpec (recipeSeasons : List Season) (current : Season) : Nat :=
  if recipeSeasons = [] then 15
  else if current ∈ recipeSeasons then 30 else 5

/-- Spec wording: min(30, 15 times the count of recipe weather tags
intersecting the current weather tags), 10 when the recipe has none. -/
def weatherScoreSpec (recipeTags todayTags : List WeatherTag) : Nat :=
  if recipeTags = [] then 10
  else min 30 (15 * (recipeTags.filter (fun t => t ∈ todayTags)).length)

/-- Spec wording: 0 below 3 days, 15 for 3-6, 30 for 7-13, 40 from 14 on
(and never eaten is 999, which falls in the last bucket). -/
def recencyScoreSpec (days : Nat) : Nat :=
  if days < 3 then 0
  else if days ≤ 6 then 15
  else if days ≤ 13 then 30
  else 40

/-- Membership and contains agree for the DecidableEq-derived BEq. -/
theorem contains_eq_mem_decide {α : Type} [DecidableEq α] (l : List α) (a : α) :
    l.contains a = decide (a ∈ l) := by
  simp [List.contains]

/-- C1. For every recipe, weather snapshot, current season and
days-since-last-eaten value, the suggestion score computed by scoreRecipe is
exactly the sum of the three spec components: the 30/5/15 season score, the
capped 15-per-matching-tag weather score with neutral 10, and the
0/15/30/40 recency score. -/
theorem c1_score_formula (recipe : Recipe) (weather : WeatherSnapshot)
    (currentSeason : Season) (daysSinceEaten : Nat) :
    scoreRecipe recipe currentSeason (getWeatherTags weather) daysSinceEaten =
      ⟨seasonScoreSpec recipe.seasons currentSeason,
       weatherScoreSpec recipe.weatherTags (getWeatherTags weather),
       recencyScoreSpec daysSinceEaten⟩ ∧
    (scoreRecipe recipe currentSeason (getWeatherTags weather) daysSinceEaten).total =
      seasonScoreSpec recipe.seasons currentSeason +
      weatherScoreSpec recipe.weatherTags (getWeatherTags weather) +
      recencyScoreSpec daysSinceEaten := by
  have hmain : scoreRecipe recipe currentSeason (getWeatherTags weather) daysSinceEaten =
      ⟨seasonScoreSpec recipe.seasons currentSeason,
       weatherScoreSpec recipe.weatherTags (getWeatherTags weather),
       recencyScoreSpec daysSinceEaten⟩ := by
    unfold scoreRecipe seasonScoreSpec weatherScoreSpec recencyScoreSpec
    have hseason : (if recipe.seasons.length > 0 then
        (if recipe.seasons.contains currentSeason then 30 else 5) else 15) =
        (if recipe.seasons = [] then 15
         else if currentSeason ∈ recipe.seasons then 30 else 5) := by
      rcases recipe.seasons with _ | ⟨s, ss⟩
      · simp
      · simp [contains_eq_mem_decide]
    have hweather : (if recipe.weatherTags.length > 0 then
        min 30 ((recipe.weatherTags.filter (fun t => (getWeatherTags weather).contains t)).length * 15)
        else 10) =
        (if recipe.weatherTags = [] then 10
         else min 30 (15 * (recipe.weatherTags.filter
            (fun t => t ∈ getWeatherTags weather)).length)) := by
      rcases h : recipe.weatherTags with _ | ⟨t, ts⟩
      · simp
      · have hfil : (t :: ts).filter (fun u => (getWeatherTags weather).contains u) =
            (t :: ts).filter (fun u => decide (u ∈ getWeatherTags weather)) := by
          apply List.filter_congr
          intro u _
          exact contains_eq_mem_decide _ u
        simp [hfil, Nat.mul_comm]
    have hrec : (if daysSinceEaten ≥ 14 then 40
        else if daysSinceEaten ≥ 7 then 30
        else if daysSinceEaten ≥ 3 then 15
        else 0) =
        (if daysSinceEaten < 3 then 0
         else if daysSinceEaten ≤ 6 then 15
         else if daysSinceEaten ≤ 13 then 30
         else 40) := by
      split_ifs <;> omega
    rw [hseason, hweather, hrec]
  exact ⟨hmain, by rw [hmain]; rfl⟩

/-! ### Claim C8: component ranges -/

/-- C8 counterexample. The claim states that the weather score always lies
in 10, 15 or 30; but a recipe that has weather tags none of which match the
current weather scores 0 there: one tagged koud under tagless weather gets
weatherScore 0, and its total can be as low as 5. -/
theorem c8_counterexample :
    (scoreRecipe ⟨1, "stoof", "soep", [], [], [.koud], 2, none⟩ .winter [] 0).weatherScore = 0 ∧
    ¬ ((scoreRecipe ⟨1, "stoof", "soep", [], [], [.koud], 2, none⟩ .winter [] 0).weatherScore = 10 ∨
       (scoreRecipe ⟨1, "stoof", "soep", [], [], [.koud], 2, none⟩ .winter [] 0).weatherScore = 15 ∨
       (scoreRecipe ⟨1, "stoof", "soep", [], [], [.koud], 2, none⟩ .winter [] 0).weatherScore = 30) := by
  decide

/-- C8 as amended. The season score is always 5, 15 or 30; the weather
score is always 0, 10, 15 or 30 (0 exactly when tags are present but none
match, 10 only in the tagless neutral case) and is a multiple of 15
whenever the recipe has weather tags; the recency score is 0, 15, 30 or 40;
the total lies in 20..100 when both neutral defaults apply, and is never
below 5 in any case. -/
theorem c8_amended_score_ranges (recipe : Recipe) (currentSeason : Season)
    (weatherTags : List WeatherTag) (daysSinceEaten : Nat) :
    (let b := scoreRecipe recipe currentSeason weatherTags daysSinceEaten
     (b.seasonScore = 5 ∨ b.seasonScore = 15 ∨ b.seasonScore = 30) ∧
     (b.weatherScore = 0 ∨ b.weatherScore = 10 ∨ b.weatherScore = 15 ∨ b.weatherScore = 30) ∧
     (recipe.weatherTags ≠ [] → 15 ∣ b.weatherScore) ∧
     (b.recencyScore = 0 ∨ b.recencyScore = 15 ∨ b.recencyScore = 30 ∨ b.recencyScore = 40) ∧
     (recipe.seasons = [] → recipe.weatherTags = [] → 20 ≤ b.total ∧ b.total ≤ 100) ∧
     5 ≤ b.total) := by
  simp only [scoreRecipe, ScoreBreakdown.total]
  set m := (recipe.weatherTags.filter (fun t => weatherTags.contains t)).length with hm
  have hseas : (if recipe.seasons.length > 0 then
      (if recipe.seasons.contains currentSeason then 30 else 5) else 15) = 5 ∨
      (if recipe.seasons.length > 0 then
      (if recipe.seasons.contains currentSeason then 30 else 5) else 15) = 15 ∨
      (if recipe.seasons.length > 0 then
      (if recipe.seasons.contains currentSeason then 30 else 5) else 15) = 30 := by
    split
    · split
      · right; right; rfl
      · left; rfl
    · right; left; rfl
  have hwthr : (if recipe.weatherTags.length > 0 then min 30 (m * 15) else 10) = 0 ∨
      (if recipe.weatherTags.length > 0 then min 30 (m * 15) else 10) = 10 ∨
      (if recipe.weatherTags.length > 0 then min 30 (m * 15) else 10) = 15 ∨
      (if recipe.weatherTags.length > 0 then min 30 (m * 15) else 10) = 30 := by
    split
    · rcases m with _ | _ | k
      · left; simp
      · right; right; left; simp [Nat.min_def]
      · right; right; right
        have : (k + 2) * 15 ≥ 30 := by omega
        simp [Nat.min_def]
        omega
    · right; left; rfl
  have hrecy : (if daysSinceEaten ≥ 14 then 40
      else if daysSinceEaten ≥ 7 then 30
      else if daysSinceEaten ≥ 3 then 15 else 0) = 0 ∨
      (if daysSinceEaten ≥ 14 then 40
      else if daysSinceEaten ≥ 7 then 30
      else if daysSinceEaten ≥ 3 then 15 else 0) = 15 ∨
      (if daysSinceEaten ≥ 14 then 40
      else if daysSinceEaten ≥ 7 then 30
      else if daysSinceEaten ≥ 3 then 15 else 0) = 30 ∨
      (if daysSinceEaten ≥ 14 then 40
      else if daysSinceEaten ≥ 7 then 30
      else if daysSinceEaten ≥ 3 then 15 else 0) = 40 := by
    split
    · right; right; right; rfl
    · split
      · right; right; left; rfl
      · split
        · right; left; rfl
        · left; rfl
  refine ⟨hseas, hwthr, ?_, hrecy, ?_, ?_⟩
  · intro hne
    have hlen : recipe.weatherTags.length > 0 := List.length_pos.mpr hne
    simp only [if_pos hlen]
    rcases Nat.le_total 30 (m * 15) with h | h
    · rw [Nat.min_eq_left h]; exact ⟨2, rfl⟩
    · rw [Nat.min_eq_right h]; exact Dvd.intro m (Nat.mul_comm 15 m)
  · intro hs hw
    simp only [hs, hw, List.length_nil, List.filter_nil]
    split_ifs <;> omega
  · rcases hseas with h | h | h <;> rw [h] <;> omega

/-- C8 amended witness: the amended range facts instantiated on a concrete
recipe with weather tags, month-of-November season and an 8-day recency. -/
theorem c8_amended_score_ranges_witness :
    ((⟨2, "curry", "curry", [], [.herfst], [.koud, .regenachtig], 2, none⟩ : Recipe).weatherTags ≠ [] →
      15 ∣ (scoreRecipe ⟨2, "curry", "curry", [], [.herfst], [.koud, .regenachtig], 2, none⟩
            .herfst [.koud] 8).weatherScore) ∧
    5 ≤ (scoreRecipe ⟨2, "curry", "curry", [], [.herfst], [.koud, .regenachtig], 2, none⟩
            .herfst [.koud] 8).total :=
  ⟨(c8_amended_score_ranges ⟨2, "curry", "curry", [], [.herfst], [.koud, .regenachtig], 2, none⟩
      .herfst [.koud] 8).2.2.1,
   (c8_amended_score_ranges ⟨2, "curry", "curry", [], [.herfst], [.koud, .regenachtig], 2, none⟩
      .herfst [.koud] 8).2.2.2.2.2⟩

/-! ### generateSuggestion (suggestion.ts lines 70-109) -/

/-- Errors surfaced by the service layer. The empty-catalog throw of
generateSuggestion is the NoRecipesAvailable case of the error taxonomy. -/
inductive AppError
  | NoRecipesAvailable
  | SuggestionNotFound
  | RecipeNotFound
deriving DecidableEq, Repr

/-- Most recent meal-history row for a recipe (findFirst ordered by eatenAt
descending); among equal timestamps the later row stands in for the
unspecified SQL tie order. -/
def lastEatenEntry (hist : List MealHistoryEntry) (recipeId : Nat) : Option MealHistoryEntry :=
  (hist.filter (fun e => e.recipeId == recipeId)).foldl
    (fun acc e =>
      match acc with
      | none => some e
      | some b => if e.eatenAt ≥ b.eatenAt then some e else some b) none

/-- getDaysSinceEaten: 999 when the recipe was never eaten, else the whole
days between now and the most recent eatenAt (date-fns differenceInDays in
the minute-based time model). -/
def getDaysSinceEaten (hist : List MealHistoryEntry) (now : Nat) (recipeId : Nat) : Nat :=
  match lastEatenEntry hist recipeId with
  | none => 999
  | some e => (now - e.eatenAt) / minutesPerDay

/-- The SuggestionScore record of suggestion.ts. -/
structure Scored where
  recipeId : Nat
  recipeName : String
  totalScore : Nat
  breakdown : ScoreBreakdown
deriving DecidableEq, Repr

/-- Request-scoped inputs of the suggestion engine: the clock, the current
season, the weather tags of the current snapshot, the serialized snapshot
(stored in weatherData) and the Math.random pick index, made explicit. -/
structure GenEnv where
  now : Nat
  currentSeason : Season
  weatherTags : List WeatherTag
  weatherJson : String
  choice : Nat
deriving Repr

/-- Score one candidate exactly as generateSuggestion does. -/
def mkScored (env : GenEnv) (hist : List MealHistoryEntry) (r : Recipe) : Scored :=
  let b := scoreRecipe r env.currentSeason env.weatherTags (getDaysSinceEaten hist env.now r.id)
  ⟨r.id, r.name, b.total, b⟩

/-- scores.sort of the source with comparator b.totalScore - a.totalScore:
JS sort is stable, so the result is the stable descending reordering, which
insertion sort under this relation computes. -/
def sortScoredDesc (scores : List Scored) : List Scored :=
  List.insertionSort (fun a b => b.totalScore ≤ a.totalScore) scores

/-- A successful generation result: the chosen recipe row and its score. -/
structure GenPick where
  recipe : Recipe
  score : Scored
deriving DecidableEq, Repr

/-- The non-recursive tail of generateSuggestion: score the available pool,
sort descending, take the top 3, pick by the random index, and look the
chosen id up again in the pool (the source's non-null assertion on that
lookup is modelled as an error). -/
def generateCore (env : GenEnv) (db : Db) (availableRecipes : List Recipe) :
    Except AppError GenPick :=
  let scores := availableRecipes.map (mkScored env db.mealHistory)
  let sorted := sortScoredDesc scores
  let topCandidates := sorted.take 3
  match topCandidates[env.choice % topCandidates.length]? with
  | none => .error .NoRecipesAvailable
  | some selected =>
    match availableRecipes.find? (fun r => r.id == selected.recipeId) with
    | none => .error .NoRecipesAvailable
    | some recipe => .ok ⟨recipe, selected⟩

/-- generateSuggestion: filter out the excluded ids; an empty pool either
fails (empty catalog) or retries with cleared exclusions. The source's
self-call with cleared excludeIds filters nothing out, so it is unrolled
here with the full catalog as the pool; the recursion depth of the source
is at most 1, because the cleared-exclusions call cannot reach the empty
branch again once the catalog is non-empty. -/
def generateSuggestion (env : GenEnv) (db : Db) (excludeRecipeIds : List Nat) :
    Except AppError GenPick :=
  let availableRecipes := db.recipes.filter (fun r => !(excludeRecipeIds.contains r.id))
  if availableRecipes.length = 0 then
    if db.recipes.length = 0 then .error .NoRecipesAvailable
    else generateCore env db (db.recipes.filter (fun r => !(([] : List Nat).contains r.id)))
  else generateCore env db availableRecipes

/-- The pool generateSuggestion effectively scores: the filtered pool, or
the whole catalog after the cleared-exclusions retry. -/
def effectivePool (db : Db) (excludeRecipeIds : List Nat) : List Recipe :=
  if db.recipes.filter (fun r => !(excludeRecipeIds.contains r.id)) = [] then db.recipes
  else db.recipes.filter (fun r => !(excludeRecipeIds.contains r.id))

instance : IsTotal Scored (fun a b => b.totalScore ≤ a.totalScore) :=
  ⟨fun a b => Nat.le_total b.totalScore a.totalScore⟩

instance : IsTrans Scored (fun a b => b.totalScore ≤ a.totalScore) :=
  ⟨fun _ _ _ hab hbc => Nat.le_trans hbc hab⟩

/-- On a non-empty pool generateCore always succeeds, and the pick is one
of the scored candidates with at most two candidates scoring strictly
higher (membership in the top 3 of the stable descending sort). -/
theorem generateCore_ok (env : GenEnv) (db : Db) (rs : List Recipe) (hne : rs ≠ []) :
    ∃ pick, generateCore env db rs = .ok pick ∧
      pick.recipe ∈ rs ∧
      pick.recipe.id = pick.score.recipeId ∧
      pick.score ∈ rs.map (mkScored env db.mealHistory) ∧
      (rs.map (mkScored env db.mealHistory)).countP
        (fun s => pick.score.totalScore < s.totalScore) ≤ 2 := by
  classical
  set scores := rs.map (mkScored env db.mealHistory) with hscores
  set sorted := sortScoredDesc scores with hsorted
  have hperm : sorted.Perm scores := List.perm_insertionSort _ scores
  have hlen : sorted.length = scores.length := hperm.length_eq
  have hpos : 0 < scores.length := by
    rw [hscores, List.length_map]
    exact List.length_pos.mpr hne
  have htoplen : 0 < (sorted.take 3).length := by
    rw [List.length_take]
    omega
  set idx := env.choice % (sorted.take 3).length with hidxdef
  have hidxlt : idx < (sorted.take 3).length := Nat.mod_lt _ htoplen
  have hidx3 : idx < 3 := lt_of_lt_of_le hidxlt (by rw [List.length_take]; exact min_le_left _ _)
  have hidxs : idx < sorted.length :=
    lt_of_lt_of_le hidxlt (by rw [List.length_take]; exact min_le_right _ _)
  have hget : (sorted.take 3)[idx]? = some ((sorted.take 3)[idx]) :=
    List.getElem?_eq_getElem hidxlt
  set selected := (sorted.take 3)[idx] with hseldef
  have hseleq : selected = sorted[idx] := List.getElem_take sorted
  have hselmem : selected ∈ scores := by
    refine hperm.mem_iff.mp ?_
    rw [hseleq]
    exact List.getElem_mem hidxs
  obtain ⟨r₀, hr₀mem, hr₀eq⟩ := List.mem_map.mp (by rw [hscores] at hselmem; exact hselmem)
  have hfind : ∃ recipe, rs.find? (fun r => r.id == selected.recipeId) = some recipe := by
    have hsome : (rs.find? (fun r => r.id == selected.recipeId)).isSome := by
      rw [List.find?_isSome]
      exact ⟨r₀, hr₀mem, by rw [← hr₀eq]; simp [mkScored]⟩
    exact Option.isSome_iff_exists.mp hsome
  obtain ⟨recipe, hfindeq⟩ := hfind
  have hrecmem : recipe ∈ rs := List.mem_of_find?_eq_some hfindeq
  have hrecid : recipe.id = selected.recipeId := by
    have h := List.find?_some hfindeq
    simpa using h
  have hpw : List.Pairwise (fun a b : Scored => b.totalScore ≤ a.totalScore) sorted :=
    List.sorted_insertionSort _ scores
  have hcount : scores.countP (fun s => selected.totalScore < s.totalScore) ≤ 2 := by
    have hc1 : scores.countP (fun s => selected.totalScore < s.totalScore) =
        sorted.countP (fun s => selected.totalScore < s.totalScore) :=
      (hperm.countP_eq _).symm
    have hsplit : sorted.countP (fun s => selected.totalScore < s.totalScore) =
        (sorted.take idx).countP (fun s => selected.totalScore < s.totalScore) +
        (sorted.drop idx).countP (fun s => selected.totalScore < s.totalScore) := by
      rw [← List.countP_append, List.take_append_drop]
    have hdrop : (sorted.drop idx).countP (fun s => selected.totalScore < s.totalScore) = 0 := by
      rw [List.countP_eq_zero]
      intro x hx
      obtain ⟨j, hj, hxeq⟩ := List.mem_iff_getElem.mp hx
      have hjs : idx + j < sorted.length := by
        have := hj
        rw [List.length_drop] at this
        omega
      have hxel : x = sorted[idx + j] := by
        rw [← hxeq]
        exact List.getElem_drop sorted
      rcases Nat.eq_zero_or_pos j with hj0 | hjpos
      · subst hj0
        simp only [Nat.add_zero] at hxel
        rw [hxel, ← hseleq]
        simp
      · have hrel : sorted[idx + j].totalScore ≤ sorted[idx].totalScore := by
          have := List.pairwise_iff_getElem.mp hpw idx (idx + j) hidxs hjs (by omega)
          exact this
        rw [hxel]
        simp only [decide_eq_true_eq, Nat.not_lt]
        rw [hseleq]
        exact hrel
    have htake : (sorted.take idx).countP (fun s => selected.totalScore < s.totalScore) ≤ idx := by
      calc (sorted.take idx).countP (fun s => selected.totalScore < s.totalScore)
          ≤ (sorted.take idx).length := List.countP_le_length _
        _ ≤ idx := by rw [List.length_take]; exact min_le_left _ _
    omega
  refine ⟨⟨recipe, selected⟩, ?_, hrecmem, hrecid, hselmem, hcount⟩
  simp only [generateCore]
  rw [← hscores, ← hsorted, ← hidxdef]
  simp only [hget, hfindeq]

/-- With the empty exclusion list the pool filter keeps every recipe. -/
theorem filter_no_exclusions (l : List Recipe) :
    l.filter (fun r => !(([] : List Nat).contains r.id)) = l := by
  simp

/-- C9. The candidate pool of generateSuggestion is the catalog minus the
excluded ids. An empty pool together with an empty exclusion list means an
empty catalog, and the call fails with NoRecipesAvailable. An empty pool
with a non-empty exclusion list behaves exactly as the retry with cleared
exclusions, degrading to the full catalog; that retry is the only
recursion, so the function is total by construction. Whenever the catalog
is non-empty the call succeeds with a recipe drawn from the top 3 scored
candidates of the effective pool: at most two candidates score strictly
higher than the returned one. -/
theorem c9_generateSuggestion_pool (env : GenEnv) (db : Db) (excl : List Nat) :
    (db.recipes.filter (fun r => !(excl.contains r.id)) = [] → excl = [] →
      generateSuggestion env db excl = .error .NoRecipesAvailable) ∧
    (db.recipes.filter (fun r => !(excl.contains r.id)) = [] → excl ≠ [] →
      generateSuggestion env db excl = generateSuggestion env db []) ∧
    (db.recipes ≠ [] →
      ∃ pick, generateSuggestion env db excl = .ok pick ∧
        pick.recipe ∈ effectivePool db excl ∧
        pick.recipe.id = pick.score.recipeId ∧
        pick.score ∈ (effectivePool db excl).map (mkScored env db.mealHistory) ∧
        ((effectivePool db excl).map (mkScored env db.mealHistory)).countP
          (fun s => pick.score.totalScore < s.totalScore) ≤ 2) := by
  refine ⟨?_, ?_, ?_⟩
  · intro hpool hexcl
    subst hexcl
    rw [filter_no_exclusions] at hpool
    simp only [generateSuggestion, hpool]
    simp
  · intro hpool _
    simp only [generateSuggestion, hpool, filter_no_exclusions, List.length_nil, if_pos rfl]
    by_cases hcat : db.recipes = []
    · simp [hcat]
    · have hlen : db.recipes.length ≠ 0 := by
        simpa [List.length_eq_zero] using hcat
      simp only [if_neg hlen]
      simp
  · intro hcat
    by_cases hpool : db.recipes.filter (fun r => !(excl.contains r.id)) = []
    · have heff : effectivePool db excl = db.recipes := by
        unfold effectivePool
        split
        · rfl
        · exact absurd hpool (by assumption)
      obtain ⟨pick, hpick, h1, h2, h3, h4⟩ := generateCore_ok env db db.recipes hcat
      refine ⟨pick, ?_, by rw [heff]; exact h1, h2, by rw [heff]; exact h3, by rw [heff]; exact h4⟩
      simp only [generateSuggestion, hpool, List.length_nil, if_pos rfl]
      have hlen : db.recipes.length ≠ 0 := by
        simpa [List.length_eq_zero] using hcat
      simp only [if_neg hlen]
      simpa using hpick
    · have heff : effectivePool db excl = db.recipes.filter (fun r => !(excl.contains r.id)) := by
        unfold effectivePool
        split
        · exact absurd (by assumption) hpool
        · rfl
      obtain ⟨pick, hpick, h1, h2, h3, h4⟩ :=
        generateCore_ok env db (db.recipes.filter (fun r => !(excl.contains r.id))) hpool
      refine ⟨pick, ?_, by rw [heff]; exact h1, h2, by rw [heff]; exact h3, by rw [heff]; exact h4⟩
      have hlen : (db.recipes.filter (fun r => !(excl.contains r.id))).length ≠ 0 := by
        simpa [List.length_eq_zero] using hpool
      simp only [generateSuggestion, if_neg hlen]
      exact hpick

/-- C9 witness: on a one-recipe catalog with an unrelated exclusion the
call succeeds and the pick is the single recipe of the effective pool. -/
theorem c9_generateSuggestion_pool_witness :
    ∃ pick, generateSuggestion ⟨0, .winter, [], "w", 0⟩
        ⟨[⟨1, "pasta", "pasta", [], [], [], 2, none⟩], [], [], [], 2, 1⟩ [2] = .ok pick ∧
      pick.recipe ∈ effectivePool ⟨[⟨1, "pasta", "pasta", [], [], [], 2, none⟩], [], [], [], 2, 1⟩ [2] ∧
      pick.recipe.id = pick.score.recipeId ∧
      pick.score ∈ (effectivePool ⟨[⟨1, "pasta", "pasta", [], [], [], 2, none⟩], [], [], [], 2, 1⟩ [2]).map
        (mkScored ⟨0, .winter, [], "w", 0⟩ ([] : List MealHistoryEntry)) ∧
      ((effectivePool ⟨[⟨1, "pasta", "pasta", [], [], [], 2, none⟩], [], [], [], 2, 1⟩ [2]).map
        (mkScored ⟨0, .winter, [], "w", 0⟩ ([] : List MealHistoryEntry))).countP
        (fun s => pick.score.totalScore < s.totalScore) ≤ 2 :=
  (c9_generateSuggestion_pool ⟨0, .winter, [], "w", 0⟩
    ⟨[⟨1, "pasta", "pasta", [], [], [], 2, none⟩], [], [], [], 2, 1⟩ [2]).2.2 (by decide)

/-! ### getTodaySuggestion (suggestion.ts lines 111-156) -/

/-- JSON.stringify of a score breakdown, stored in the reason column. -/
def breakdownJson (b : ScoreBreakdown) : String :=
  "\x7b\x22seasonScore\x22:" ++ toString b.seasonScore ++
  ",\x22weatherScore\x22:" ++ toString b.weatherScore ++
  ",\x22recencyScore\x22:" ++ toString b.recencyScore ++ "\x7d"

/-- Most recent suggestion row for a date (select where suggestedFor =
today, order by createdAt descending, limit 1); among equal createdAt
values the later row stands in for the unspecified SQL tie order. -/
def latestFor (today : String) (sugs : List Suggestion) : Option Suggestion :=
  (sugs.filter (fun s => s.suggestedFor == today)).foldl
    (fun acc s =>
      match acc with
      | none => some s
      | some b => if s.createdAt ≥ b.createdAt then some s else some b) none

/-- First suggestion row for a date in ascending createdAt order: the
select used by the shopping handler, which orders by createdAt without
desc (drizzle default ascending) and takes limit 1. -/
def earliestFor (today : String) (sugs : List Suggestion) : Option Suggestion :=
  (sugs.filter (fun s => s.suggestedFor == today)).foldl
    (fun acc s =>
      match acc with
      | none => some s
      | some b => if s.createdAt < b.createdAt then some s else some b) none

/-- Recipe ids of every suggestion row for a date (the exclusion set the
engine recomputes before generating). -/
def todaySuggestedIds (today : String) (sugs : List Suggestion) : List Nat :=
  (sugs.filter (fun s => s.suggestedFor == today)).map (fun s => s.recipeId)

/-- The generate-and-persist tail shared by getTodaySuggestion and
rejectSuggestion: compute the ids already suggested today, generate
excluding them, insert the result as a new pending row for today and
return it; on generation failure nothing further is written and the error
propagates with the state as it stood. -/
def genStoreToday (today : String) (env : GenEnv) (db : Db) :
    Db × Except AppError (Suggestion × Option Recipe) :=
  let excludeIds := todaySuggestedIds today db.suggestions
  match generateSuggestion env db excludeIds with
  | .error e => (db, .error e)
  | .ok pick =>
    let sug : Suggestion :=
      { id := db.nextSuggestionId, recipeId := pick.recipe.id, suggestedFor := today,
        status := .pending, reason := breakdownJson pick.score.breakdown,
        weatherData := env.weatherJson, createdAt := env.now }
    ({ db with
        suggestions := db.suggestions ++ [sug],
        nextSuggestionId := db.nextSuggestionId + 1 }, .ok (sug, some pick.recipe))

/-- getTodaySuggestion: if the most recent row for today is accepted or
pending, return it with its recipe, touching nothing; otherwise generate a
fresh pending suggestion excluding all of today's suggested recipe ids,
persist and return it. -/
def getTodaySuggestion (today : String) (env : GenEnv) (db : Db) :
    Db × Except AppError (Suggestion × Option Recipe) :=
  match latestFor today db.suggestions with
  | some s =>
    if s.status == .accepted || s.status == .pending then
      (db, .ok (s, db.recipes.find? (fun r => r.id == s.recipeId)))
    else genStoreToday today env db
  | none => genStoreToday today env db

/-- C2. While today's most recent suggestion row is pending or accepted,
getTodaySuggestion returns that row with its recipe and persists nothing,
so a second call on the same day (with any weather or randomness) returns
the identical suggestion; and only when no pending or accepted row is most
recent does it generate and persist a new pending suggestion, generated
with all of today's already-suggested recipe ids as the exclusion list. -/
theorem c2_getTodaySuggestion_idempotent (today : String) (env env₂ : GenEnv) (db : Db) :
    (∀ s, latestFor today db.suggestions = some s →
      (s.status = .accepted ∨ s.status = .pending) →
      getTodaySuggestion today env db =
        (db, .ok (s, db.recipes.find? (fun r => r.id == s.recipeId))) ∧
      getTodaySuggestion today env₂ (getTodaySuggestion today env db).1 =
        (db, .ok (s, db.recipes.find? (fun r => r.id == s.recipeId)))) ∧
    ((∀ s, latestFor today db.suggestions = some s →
        s.status ≠ .accepted ∧ s.status ≠ .pending) →
      ∀ sug rec, (getTodaySuggestion today env db).2 = .ok (sug, rec) →
        sug.status = .pending ∧ sug.suggestedFor = today ∧
        (getTodaySuggestion today env db).1.suggestions = db.suggestions ++ [sug] ∧
        ∃ pick, generateSuggestion env db (todaySuggestedIds today db.suggestions) = .ok pick ∧
          sug.recipeId = pick.recipe.id ∧ rec = some pick.recipe) := by
  constructor
  · intro s hs hstat
    have hbeq : (s.status == SugStatus.accepted || s.status == SugStatus.pending) = true := by
      rcases hstat with h | h <;> rw [h] <;> rfl
    have hfirst : getTodaySuggestion today env db =
        (db, .ok (s, db.recipes.find? (fun r => r.id == s.recipeId))) := by
      simp only [getTodaySuggestion, hs, hbeq, if_true]
    refine ⟨hfirst, ?_⟩
    rw [hfirst]
    simp only [getTodaySuggestion, hs, hbeq, if_true]
  · intro hstat sug rec hok
    have hbranch : getTodaySuggestion today env db = genStoreToday today env db := by
      simp only [getTodaySuggestion]
      cases hl : latestFor today db.suggestions with
      | none => rfl
      | some s =>
        obtain ⟨ha, hp⟩ := hstat s hl
        have hbeq : (s.status == SugStatus.accepted || s.status == SugStatus.pending) = false := by
          cases hst : s.status <;> simp_all
        simp [hbeq]
    rw [hbranch] at hok ⊢
    simp only [genStoreToday] at hok ⊢
    cases hgen : generateSuggestion env db (todaySuggestedIds today db.suggestions) with
    | error e =>
      rw [hgen] at hok
      simp at hok
    | ok pick =>
      rw [hgen] at hok
      simp only [Except.ok.injEq, Prod.mk.injEq] at hok
      obtain ⟨hsug, hrec⟩ := hok
      refine ⟨by rw [← hsug], by rw [← hsug], by simp [← hsug], pick, rfl, by rw [← hsug], hrec.symm⟩

/-- C2 witness: one pending suggestion for today is returned unchanged by
the call and again by an immediately following call. -/
theorem c2_getTodaySuggestion_idempotent_witness :
    getTodaySuggestion "2025-06-10" ⟨10, .zomer, [], "w", 0⟩
        ⟨[⟨1, "pasta", "pasta", [], [], [], 2, none⟩],
         [⟨1, 1, "2025-06-10", .pending, "", "", 5⟩], [], [], 2, 1⟩ =
      (⟨[⟨1, "pasta", "pasta", [], [], [], 2, none⟩],
        [⟨1, 1, "2025-06-10", .pending, "", "", 5⟩], [], [], 2, 1⟩,
       .ok (⟨1, 1, "2025-06-10", .pending, "", "", 5⟩,
            some ⟨1, "pasta", "pasta", [], [], [], 2, none⟩)) ∧
    getTodaySuggestion "2025-06-10" ⟨99, .herfst, [.koud], "w2", 3⟩
        (getTodaySuggestion "2025-06-10" ⟨10, .zomer, [], "w", 0⟩
          ⟨[⟨1, "pasta", "pasta", [], [], [], 2, none⟩],
           [⟨1, 1, "2025-06-10", .pending, "", "", 5⟩], [], [], 2, 1⟩).1 =
      (⟨[⟨1, "pasta", "pasta", [], [], [], 2, none⟩],
        [⟨1, 1, "2025-06-10", .pending, "", "", 5⟩], [], [], 2, 1⟩,
       .ok (⟨1, 1, "2025-06-10", .pending, "", "", 5⟩,
            some ⟨1, "pasta", "pasta", [], [], [], 2, none⟩)) := by
  have h := (c2_getTodaySuggestion_idempotent "2025-06-10" ⟨10, .zomer, [], "w", 0⟩
      ⟨99, .herfst, [.koud], "w2", 3⟩
      ⟨[⟨1, "pasta", "pasta", [], [], [], 2, none⟩],
       [⟨1, 1, "2025-06-10", .pending, "", "", 5⟩], [], [], 2, 1⟩).1
      ⟨1, 1, "2025-06-10", .pending, "", "", 5⟩ (by decide) (Or.inr rfl)
  have hfind : (List.find? (fun r => r.id == (1 : Nat))
      [(⟨1, "pasta", "pasta", [], [], [], 2, none⟩ : Recipe)]) =
      some ⟨1, "pasta", "pasta", [], [], [], 2, none⟩ := by decide
  constructor
  · rw [h.1]
    rfl
  · rw [h.2]
    rfl

/-! ### acceptSuggestion and rejectSuggestion (suggestion.ts lines 158-228) -/

/-- acceptSuggestion: set the row's status to accepted, read it back (the
source updates first, then queries), fail when it does not exist, else
insert a meal-history row for its recipe dated now (servings left to the
schema default 2). -/
def acceptSuggestion (db : Db) (suggestionId : Nat) (now : Nat) : Db × Except AppError Unit :=
  let updated := db.suggestions.map (fun s =>
    if s.id == suggestionId then { s with status := SugStatus.accepted } else s)
  match updated.find? (fun s => s.id == suggestionId) with
  | none => ({ db with suggestions := updated }, .error .SuggestionNotFound)
  | some s =>
    ({ db with
        suggestions := updated,
        mealHistory := db.mealHistory ++
          [{ id := db.nextHistoryId, recipeId := s.recipeId, eatenAt := now, servings := 2 }],
        nextHistoryId := db.nextHistoryId + 1 }, .ok ())

/-- rejectSuggestion: when the identified suggestion exists and its status
is accepted, first delete every meal-history row for its recipe whose
eatenAt falls inside today's calendar-day window (todayStart up to but not
including todayStart plus one day); then mark the row rejected; then
generate and persist a fresh pending suggestion for today through the same
generation tail as getTodaySuggestion. A missing suggestion id is not an
error here: the source proceeds to regenerate regardless. -/
def rejectSuggestion (today : String) (todayStart : Nat) (env : GenEnv) (db : Db)
    (suggestionId : Nat) : Db × Except AppError (Suggestion × Option Recipe) :=
  let found := db.suggestions.find? (fun s => s.id == suggestionId)
  let dbAfterDelete : Db :=
    match found with
    | some s =>
      if s.status == SugStatus.accepted then
        { db with
            mealHistory := db.mealHistory.filter (fun e =>
              !(e.recipeId == s.recipeId && decide (todayStart ≤ e.eatenAt) &&
                decide (e.eatenAt < todayStart + minutesPerDay))) }
      else db
    | none => db
  let dbAfterUpdate : Db :=
    { dbAfterDelete with
        suggestions := dbAfterDelete.suggestions.map (fun s =>
          if s.id == suggestionId then { s with status := SugStatus.rejected } else s) }
  genStoreToday today env dbAfterUpdate

/-- The generation tail never touches the meal-history table. -/
theorem genStoreToday_mealHistory (t : String) (e : GenEnv) (d : Db) :
    (genStoreToday t e d).1.mealHistory = d.mealHistory := by
  simp only [genStoreToday]
  cases generateSuggestion e d (todaySuggestedIds t d.suggestions) <;> rfl

/-- The generation tail only ever appends to the suggestions table. -/
theorem genStoreToday_sugs_superset (t : String) (e : GenEnv) (d : Db) :
    ∀ x ∈ d.suggestions, x ∈ (genStoreToday t e d).1.suggestions := by
  intro x hx
  simp only [genStoreToday]
  cases generateSuggestion e d (todaySuggestedIds t d.suggestions) with
  | error err => exact hx
  | ok pick => exact List.mem_append_left _ hx

/-- On success the generation tail appends exactly one pending row for the
requested day and returns it. -/
theorem genStoreToday_ok (t : String) (e : GenEnv) (d : Db) (sug : Suggestion)
    (rec : Option Recipe) (h : (genStoreToday t e d).2 = .ok (sug, rec)) :
    sug.status = SugStatus.pending ∧ sug.suggestedFor = t ∧
    (genStoreToday t e d).1.suggestions = d.suggestions ++ [sug] := by
  simp only [genStoreToday] at h ⊢
  cases hg : generateSuggestion e d (todaySuggestedIds t d.suggestions) with
  | error err =>
    rw [hg] at h
    simp at h
  | ok pick =>
    rw [hg] at h
    simp only [Except.ok.injEq, Prod.mk.injEq] at h
    obtain ⟨hsug, _⟩ := h
    exact ⟨by rw [← hsug], by rw [← hsug], by simp [← hsug]⟩

/-- C4 counterexample. The claim says the reject of an accepted suggestion
deletes exactly the history entry created by the matching accept and no
others. Concretely: recipe 7 was accepted today (history entry id 1) but
the user had also logged recipe 7 for today by hand (entry id 2); an entry
for recipe 7 on an earlier day (id 3) also exists. Rejecting deletes BOTH
entries of today and keeps only the earlier-day entry, so entry id 2 — not
created by the accept — does not survive, refuting the claim as stated. -/
theorem c4_counterexample :
    (rejectSuggestion "2025-06-10" 10000 ⟨10300, .zomer, [], "w", 0⟩
        ⟨[⟨7, "dal", "curry", [], [], [], 2, none⟩],
         [⟨1, 7, "2025-06-10", .accepted, "", "", 100⟩],
         [⟨1, 7, 10200, 2⟩, ⟨2, 7, 10100, 2⟩, ⟨3, 7, 5000, 2⟩], [], 2, 4⟩
        1).1.mealHistory = [⟨3, 7, 5000, 2⟩] ∧
    (⟨2, 7, 10100, 2⟩ : MealHistoryEntry) ∈
      ([⟨1, 7, 10200, 2⟩, ⟨2, 7, 10100, 2⟩, ⟨3, 7, 5000, 2⟩] : List MealHistoryEntry) ∧
    (⟨2, 7, 10100, 2⟩ : MealHistoryEntry) ∉
      (rejectSuggestion "2025-06-10" 10000 ⟨10300, .zomer, [], "w", 0⟩
        ⟨[⟨7, "dal", "curry", [], [], [], 2, none⟩],
         [⟨1, 7, "2025-06-10", .accepted, "", "", 100⟩],
         [⟨1, 7, 10200, 2⟩, ⟨2, 7, 10100, 2⟩, ⟨3, 7, 5000, 2⟩], [], 2, 4⟩
        1).1.mealHistory := by
  decide

/-- C4 as amended. rejectSuggestion on an accepted suggestion deletes all
meal-history entries for that recipe whose eatenAt falls within today's
calendar-day window — the accept-created entry and any other same-recipe
same-day entry alike; entries for the same recipe on other calendar days
and entries for other recipes survive unchanged and nothing is added;
afterwards the suggestion row carries status rejected, and on success a
fresh pending suggestion for today is appended and returned. -/
theorem c4_amended_reject_compensation (today : String) (ts : Nat) (env : GenEnv)
    (db : Db) (sugId : Nat) (s : Suggestion)
    (hfind : db.suggestions.find? (fun t => t.id == sugId) = some s)
    (hacc : s.status = SugStatus.accepted) :
    (∀ e ∈ db.mealHistory,
        (e.recipeId ≠ s.recipeId ∨ e.eatenAt < ts ∨ ts + minutesPerDay ≤ e.eatenAt) →
        e ∈ (rejectSuggestion today ts env db sugId).1.mealHistory) ∧
    (∀ e ∈ db.mealHistory,
        e.recipeId = s.recipeId → ts ≤ e.eatenAt → e.eatenAt < ts + minutesPerDay →
        e ∉ (rejectSuggestion today ts env db sugId).1.mealHistory) ∧
    (∀ e ∈ (rejectSuggestion today ts env db sugId).1.mealHistory, e ∈ db.mealHistory) ∧
    (∀ t ∈ db.suggestions, t.id = sugId →
        { t with status := SugStatus.rejected } ∈
          (rejectSuggestion today ts env db sugId).1.suggestions) ∧
    (∀ sug rec, (rejectSuggestion today ts env db sugId).2 = .ok (sug, rec) →
        sug.status = SugStatus.pending ∧ sug.suggestedFor = today ∧
        sug ∈ (rejectSuggestion today ts env db sugId).1.suggestions) := by
  have hbeq : (s.status == SugStatus.accepted) = true := by rw [hacc]; rfl
  have hR : rejectSuggestion today ts env db sugId =
      genStoreToday today env
        { db with
            mealHistory := db.mealHistory.filter (fun e =>
              !(e.recipeId == s.recipeId && decide (ts ≤ e.eatenAt) &&
                decide (e.eatenAt < ts + minutesPerDay))),
            suggestions := db.suggestions.map (fun u =>
              if u.id == sugId then { u with status := SugStatus.rejected } else u) } := by
    simp only [rejectSuggestion, hfind, hbeq, if_true]
  refine ⟨?_, ?_, ?_, ?_, ?_⟩
  · intro e he hd
    rw [hR, genStoreToday_mealHistory]
    simp only [List.mem_filter]
    refine ⟨he, ?_⟩
    simp only [Bool.not_eq_eq_eq_not, Bool.not_true, Bool.and_eq_false_iff,
      beq_eq_false_iff_ne, decide_eq_false_iff_not, Nat.not_le, Nat.not_lt]
    rcases hd with h | h | h
    · left; left; exact h
    · left; right; omega
    · right; omega
  · intro e he h1 h2 h3
    rw [hR, genStoreToday_mealHistory]
    simp only [List.mem_filter]
    rintro ⟨-, hpred⟩
    simp only [Bool.not_eq_eq_eq_not, Bool.not_true, Bool.and_eq_false_iff,
      beq_eq_false_iff_ne, decide_eq_false_iff_not, Nat.not_le, Nat.not_lt] at hpred
    rcases hpred with (h | h) | h
    · exact h h1
    · omega
    · omega
  · intro e he
    rw [hR, genStoreToday_mealHistory] at he
    exact (List.mem_filter.mp he).1
  · intro t ht hid
    rw [hR]
    apply genStoreToday_sugs_superset
    simp only [List.mem_map]
    refine ⟨t, ht, ?_⟩
    have h : (t.id == sugId) = true := by rw [hid]; exact beq_self_eq_true sugId
    rw [h]
    simp
  · intro sug rec hok
    rw [hR] at hok
    obtain ⟨h1, h2, h3⟩ := genStoreToday_ok _ _ _ _ _ hok
    refine ⟨h1, h2, ?_⟩
    rw [hR, h3]
    exact List.mem_append_right _ (by simp)

/-- C4 amended witness: the amended deletion facts instantiated on the
concrete state of the counterexample — the other-day entry survives, the
hand-logged same-day entry for the same recipe is deleted too, and the old
row is now rejected. -/
theorem c4_amended_reject_compensation_witness :
    ((⟨3, 7, 5000, 2⟩ : MealHistoryEntry) ∈
      (rejectSuggestion "2025-06-10" 10000 ⟨10300, .zomer, [], "w", 0⟩
        ⟨[⟨7, "dal", "curry", [], [], [], 2, none⟩],
         [⟨1, 7, "2025-06-10", .accepted, "", "", 100⟩],
         [⟨1, 7, 10200, 2⟩, ⟨2, 7, 10100, 2⟩, ⟨3, 7, 5000, 2⟩], [], 2, 4⟩
        1).1.mealHistory) ∧
    ((⟨2, 7, 10100, 2⟩ : MealHistoryEntry) ∉
      (rejectSuggestion "2025-06-10" 10000 ⟨10300, .zomer, [], "w", 0⟩
        ⟨[⟨7, "dal", "curry", [], [], [], 2, none⟩],
         [⟨1, 7, "2025-06-10", .accepted, "", "", 100⟩],
         [⟨1, 7, 10200, 2⟩, ⟨2, 7, 10100, 2⟩, ⟨3, 7, 5000, 2⟩], [], 2, 4⟩
        1).1.mealHistory) ∧
    ((⟨1, 7, "2025-06-10", SugStatus.rejected, "", "", 100⟩ : Suggestion) ∈
      (rejectSuggestion "2025-06-10" 10000 ⟨10300, .zomer, [], "w", 0⟩
        ⟨[⟨7, "dal", "curry", [], [], [], 2, none⟩],
         [⟨1, 7, "2025-06-10", .accepted, "", "", 100⟩],
         [⟨1, 7, 10200, 2⟩, ⟨2, 7, 10100, 2⟩, ⟨3, 7, 5000, 2⟩], [], 2, 4⟩
        1).1.suggestions) :=
  ⟨(c4_amended_reject_compensation "2025-06-10" 10000 ⟨10300, .zomer, [], "w", 0⟩
      ⟨[⟨7, "dal", "curry", [], [], [], 2, none⟩],
       [⟨1, 7, "2025-06-10", .accepted, "", "", 100⟩],
       [⟨1, 7, 10200, 2⟩, ⟨2, 7, 10100, 2⟩, ⟨3, 7, 5000, 2⟩], [], 2, 4⟩
      1 ⟨1, 7, "2025-06-10", .accepted, "", "", 100⟩ (by decide) rfl).1
      ⟨3, 7, 5000, 2⟩ (by decide) (by right; left; decide),
   (c4_amended_reject_compensation "2025-06-10" 10000 ⟨10300, .zomer, [], "w", 0⟩
      ⟨[⟨7, "dal", "curry", [], [], [], 2, none⟩],
       [⟨1, 7, "2025-06-10", .accepted, "", "", 100⟩],
       [⟨1, 7, 10200, 2⟩, ⟨2, 7, 10100, 2⟩, ⟨3, 7, 5000, 2⟩], [], 2, 4⟩
      1 ⟨1, 7, "2025-06-10", .accepted, "", "", 100⟩ (by decide) rfl).2.1
      ⟨2, 7, 10100, 2⟩ (by decide) rfl (by decide) (by decide),
   (c4_amended_reject_compensation "2025-06-10" 10000 ⟨10300, .zomer, [], "w", 0⟩
      ⟨[⟨7, "dal", "curry", [], [], [], 2, none⟩],
       [⟨1, 7, "2025-06-10", .accepted, "", "", 100⟩],
       [⟨1, 7, 10200, 2⟩, ⟨2, 7, 10100, 2⟩, ⟨3, 7, 5000, 2⟩], [], 2, 4⟩
      1 ⟨1, 7, "2025-06-10", .accepted, "", "", 100⟩ (by decide) rfl).2.2.2.1
      ⟨1, 7, "2025-06-10", .accepted, "", "", 100⟩ (by decide) rfl⟩

/-! ### normalizeIngredientName (shopping.ts lines 84-92) -/

/-- The ordered leading-descriptor alternatives of the first anchored
replace. Each regex alternative is a stem with an optional final e; the
greedy engine tries the long form first and backtracks to the stem, and
alternatives are tried left to right, which this ordered list reproduces. -/
def leadingDescriptorForms : List (List Char) :=
  ["verse".toList, "vers".toList, "biologische".toList, "biologisch".toList,
   "grote".toList, "grot".toList, "kleine".toList, "klein".toList,
   "rode".toList, "rod".toList, "groene".toList, "groen".toList,
   "gele".toList, "gel".toList, "witte".toList, "witt".toList]

/-- Trailing-descriptor words of the second anchored replace. -/
def trailingDescriptorForms : List (List Char) :=
  ["vers".toList, "biologisch".toList, "groot".toList, "klein".toList,
   "rood".toList, "groen".toList, "geel".toList, "wit".toList]

/-- Strip one leading descriptor followed by whitespace. Whitespace runs
were already collapsed to single spaces when this replace runs, so the
one-or-more-whitespace of the pattern is exactly one space. -/
def stripLeadingDescriptor (s : List Char) : List Char :=
  match leadingDescriptorForms.find? (fun p => (p ++ [' ']).isPrefixOf s) with
  | some p => s.drop (p.length + 1)
  | none => s

/-- Strip one trailing descriptor preceded by whitespace. -/
def stripTrailingDescriptor (s : List Char) : List Char :=
  match trailingDescriptorForms.find? (fun p => ([' '] ++ p).isSuffixOf s) with
  | some p => s.take (s.length - (p.length + 1))
  | none => s

/-- normalizeIngredientName from shopping.ts: lower-case, trim, collapse
whitespace runs to single spaces, strip one leading and one trailing
Dutch descriptor. -/
def normalizeIngredientName (name : String) : String :=
  (stripTrailingDescriptor (stripLeadingDescriptor
    (collapseWs (trimList (lowerList name.toList))))).asString

/-! ### categorizeIngredient (shopping.ts lines 20-81) -/

/-- The fixed category taxonomy of shopping.ts in declaration order. The
Zuivel list reproduces the source file's doubly-encoded creme-fraiche
keyword byte for byte. -/
def ingredientCategories : List (String × List String) :=
  [("Groente & Fruit",
    ["ui", "uien", "knoflook", "tomaat", "tomaten", "paprika", "wortel", "wortels",
     "spinazie", "sla", "komkommer", "courgette", "aubergine", "broccoli", "bloemkool",
     "champignon", "champignons", "prei", "bosui", "lente-ui", "gember", "citroen",
     "limoen", "avocado", "pompoen", "zoete aardappel", "aardappel", "aardappelen",
     "paksoi", "sperziebonen", "mais", "erwten", "kikkererwten", "bonen", "linzen",
     "appel", "banaan", "mango", "ananas", "granaatappel", "basilicum", "koriander",
     "peterselie", "munt", "bieslook", "dille", "rode ui", "sjalot", "bleekselderij"]),
   ("Zuivel & Eieren",
    ["melk", "room", "slagroom", "crÃ¨me fraÃ®che", "yoghurt", "kwark", "kaas",
     "mozzarella", "parmezaan", "geitenkaas", "feta", "ricotta", "mascarpone",
     "boter", "ei", "eieren", "halloumi", "cottage cheese"]),
   ("Vlees & Vis",
    ["kip", "kipfilet", "kippenbouten", "gehakt", "rundergehakt", "varkensvlees",
     "spek", "bacon", "worst", "chorizo", "zalm", "garnalen", "tonijn", "kabeljauw",
     "makreel", "mosselen", "vis", "kalkoen", "eend", "lam"]),
   ("Pasta, Rijst & Granen",
    ["pasta", "spaghetti", "penne", "tagliatelle", "orzo", "gnocchi", "noedels",
     "rijst", "basmatirijst", "risottorijst", "couscous", "bulgur", "quinoa",
     "brood", "tortilla", "wraps", "naanbrood", "pitabrood", "bladerdeeg"]),
   ("Conserven & Sauzen",
    ["tomatenpuree", "passata", "gepelde tomaten", "tomatenblokjes", "kokosmelk",
     "sojasaus", "oestersaus", "vissaus", "sriracha", "sambal", "ketjap",
     "mayonaise", "mosterd", "ketchup", "pesto", "olijven", "kappertjes",
     "zongedroogde tomaten", "bonen", "kidneybonen", "witte bonen", "linzen"]),
   ("Kruiden & Specerijen",
    ["zout", "peper", "paprikapoeder", "komijn", "kurkuma", "koriander", "kaneel",
     "nootmuskaat", "cayennepeper", "chilipoeder", "oregano", "tijm", "rozemarijn",
     "laurier", "currypoeder", "garam masala", "ras el hanout", "za\x27atar",
     "chilivlokken", "kruidnagel", "kardemom", "foelie", "venkelzaad"]),
   ("Noten & Zaden",
    ["cashewnoten", "pinda\x27s", "amandelen", "walnoten", "pijnboompitten",
     "sesamzaad", "zonnebloempitten", "pompoenpitten", "lijnzaad", "chiazaad"]),
   ("Olie & Azijn",
    ["olijfolie", "zonnebloemolie", "sesamolie", "kokosolie", "azijn", "balsamico",
     "wijnazijn", "rijstazijn", "appelazijn"]),
   ("Overig", [])]

/-- The 9 category names in fixed order. -/
def categoryNames : List String := ingredientCategories.map Prod.fst

/-- Walk the taxonomy in order, skipping the Overig entry, and return the
first category one of whose keywords occurs in the lower-cased name. -/
def categorizeFrom (lowerName : List Char) : List (String × List String) → String
  | [] => "Overig"
  | (cat, keywords) :: rest =>
    if cat == "Overig" then categorizeFrom lowerName rest
    else if keywords.any (fun k => includesSub lowerName k.toList) then cat
    else categorizeFrom lowerName rest

/-- categorizeIngredient from shopping.ts: scan the original name,
lower-cased, against the taxonomy. -/
def categorizeIngredient (name : String) : String :=
  categorizeFrom (lowerList name.toList) ingredientCategories

/-! ### mergeIngredients (shopping.ts lines 95-178) -/

/-- A source occurrence recorded on a merged item. -/
structure SourceRef where
  recipeName : String
  recipeId : Nat
  amount : Option Int
  unit : Option String
deriving DecidableEq, Repr

/-- An ingredient line tagged with its recipe, as mergeIngredients
receives them. -/
structure TaggedIngredient where
  name : String
  amount : Option Int
  unit : Option String
  recipeName : String
  recipeId : Nat
deriving DecidableEq, Repr

/-- The accumulator entry behind one key of the merge map. -/
structure MergeAcc where
  name : String
  displayName : String
  amounts : List (Option Int × Option String)
  category : String
  sources : List SourceRef
deriving DecidableEq, Repr

/-- A finished shopping-list item. -/
structure ShoppingItem where
  name : String
  displayName : String
  amount : Option Int
  unit : Option String
  category : String
  sources : List SourceRef
deriving DecidableEq, Repr

/-- Update the value stored under a key, keeping its position (JS Map.set
on an existing key keeps insertion order). -/
def updateAssoc (key : String) (f : MergeAcc → MergeAcc) :
    List (String × MergeAcc) → List (String × MergeAcc)
  | [] => []
  | (k, v) :: rest =>
    if k == key then (k, f v) :: rest else (k, v) :: updateAssoc key f rest

/-- Key-membership test of the merge map. -/
def hasKey (key : String) (m : List (String × MergeAcc)) : Bool :=
  m.any (fun kv => kv.1 == key)

/-- The source record pushed for an occurrence. -/
def srcOf (ing : TaggedIngredient) : SourceRef :=
  ⟨ing.recipeName, ing.recipeId, ing.amount, ing.unit⟩

/-- The fresh group opened for a first-seen normalized name: keeps the
original name as displayName and categorizes by the original name. -/
def initialAcc (ing : TaggedIngredient) : MergeAcc :=
  ⟨normalizeIngredientName ing.name, ing.name, [(ing.amount, ing.unit)],
   categorizeIngredient ing.name, [srcOf ing]⟩

/-- Appending one more occurrence to an existing group. -/
def appendAcc (ing : TaggedIngredient) (acc : MergeAcc) : MergeAcc :=
  { acc with
      amounts := acc.amounts ++ [(ing.amount, ing.unit)],
      sources := acc.sources ++ [srcOf ing] }

/-- One iteration of the merge loop: group by normalized name, append the
occurrence to an existing group or open a new group. -/
def mergeStep (m : List (String × MergeAcc)) (ing : TaggedIngredient) :
    List (String × MergeAcc) :=
  let key := normalizeIngredientName ing.name
  if hasKey key m then updateAssoc key (appendAcc ing) m
  else m ++ [(key, initialAcc ing)]

/-- Add an amount into the per-unit sums, keeping first-seen key order. -/
def addUnitGroup (key : String) (amount : Int) :
    List (String × Int) → List (String × Int)
  | [] => [(key, amount)]
  | (k, v) :: rest =>
    if k == key then (k, v + amount) :: rest else (k, v) :: addUnitGroup key amount rest

/-- The unit key of an occurrence: unit with null and empty string both
collapsing to the empty string, lower-cased. -/
def unitKey (u : Option String) : String := jsToLower (u.getD "")

/-- Combine one merge group: when exactly one unit key occurs and no
occurrence has a null amount, sum the amounts under that unit (empty unit
becomes null); otherwise fall back to the first occurrence's raw amount
and unit. -/
def combineItem (item : MergeAcc) : ShoppingItem :=
  let unitGroups := item.amounts.foldl (fun m p =>
    match p.1 with
    | none => m
    | some a => addUnitGroup (unitKey p.2) a m) []
  let hasNull := item.amounts.any (fun p => p.1 == (none : Option Int))
  match unitGroups, hasNull with
  | [(u, total)], false =>
    ⟨item.name, item.displayName, some total, if u == "" then none else some u,
     item.category, item.sources⟩
  | _, _ =>
    ⟨item.name, item.displayName, (item.amounts.headD (none, none)).1,
     (item.amounts.headD (none, none)).2, item.category, item.sources⟩

/-- mergeIngredients from shopping.ts: fold the lines into the ordered
merge map, then combine every group. -/
def mergeIngredients (ingredients : List TaggedIngredient) : List ShoppingItem :=
  (ingredients.foldl mergeStep []).map (fun kv => combineItem kv.2)

/-! ### Spec-side combination rules (claim C6)

These two definitions follow the words of the specification for the
combined amount of a one-occurrence and a two-occurrence group. -/

/-- Spec wording for a single occurrence: a non-null amount is kept under
its case-normalized unit (empty unit becomes null); a null amount keeps
the raw pair. -/
def combinedOneSpec (p : Option Int × Option String) : Option Int × Option String :=
  match p.1 with
  | some a => (some a, if unitKey p.2 = "" then none else some (unitKey p.2))
  | none => (none, p.2)

/-- Spec wording for two occurrences: amounts are summed under the shared
unit iff both are non-null and the unit keys agree case-insensitively
(null and empty string alike); otherwise the first raw amount and unit are
kept. -/
def combinedTwoSpec (p q : Option Int × Option String) : Option Int × Option String :=
  match p.1, q.1 with
  | some a1, some a2 =>
    if unitKey p.2 = unitKey q.2 then
      (some (a1 + a2), if unitKey p.2 = "" then none else some (unitKey p.2))
    else (p.1, p.2)
  | _, _ => (p.1, p.2)

/-- Combining a one-occurrence group follows the one-occurrence rule. -/
theorem combineItem_one (n d c : String) (p : Option Int × Option String)
    (srcs : List SourceRef) :
    combineItem ⟨n, d, [p], c, srcs⟩ =
      ⟨n, d, (combinedOneSpec p).1, (combinedOneSpec p).2, c, srcs⟩ := by
  rcases p with ⟨a, u⟩
  cases a with
  | none => simp [combineItem, combinedOneSpec]
  | some a1 =>
    by_cases hu : unitKey u = ""
    · simp [combineItem, combinedOneSpec, addUnitGroup, hu]
    · have hbu : (unitKey u == "") = false := by
        simp [hu]
      simp [combineItem, combinedOneSpec, addUnitGroup, hu, hbu]

/-- Combining a two-occurrence group follows the two-occurrence rule. -/
theorem combineItem_two (n d c : String) (p q : Option Int × Option String)
    (srcs : List SourceRef) :
    combineItem ⟨n, d, [p, q], c, srcs⟩ =
      ⟨n, d, (combinedTwoSpec p q).1, (combinedTwoSpec p q).2, c, srcs⟩ := by
  rcases p with ⟨a, u⟩
  rcases q with ⟨b, v⟩
  cases a with
  | none => cases b <;> simp [combineItem, combinedTwoSpec, addUnitGroup]
  | some a1 =>
    cases b with
    | none => simp [combineItem, combinedTwoSpec, addUnitGroup]
    | some b1 =>
      by_cases hk : unitKey u = unitKey v
      · have hbk : (unitKey u == unitKey v) = true := by simp [hk]
        by_cases hu : unitKey u = ""
        · simp [combineItem, combinedTwoSpec, addUnitGroup, hk, hbk, hu]
        · have hbu : (unitKey u == "") = false := by simp [hu]
          simp [combineItem, combinedTwoSpec, addUnitGroup, hk, hbk, hu, hbu]
      · have hbk : (unitKey u == unitKey v) = false := by simp [hk]
        simp [combineItem, combinedTwoSpec, addUnitGroup, hk, hbk]

/-- C6. Two ingredient lines merge into one shopping-list item iff their
normalized names are byte-equal. The merged item keeps the first line's
original name as displayName, records both occurrences in sources in
encounter order, and its amount follows the two-occurrence rule: the sum
under the single shared unit iff both amounts are non-null and the unit
keys agree case-insensitively, else the first raw amount and unit. Lines
with different normalized names stay two items in encounter order. In
particular 2 ui plus 1 rode ui merges to amount 3, while 200 g bloem plus
1 kop bloem keeps 200 g with both occurrences in sources. -/
theorem c6_merge_two_lines (i1 i2 : TaggedIngredient) :
    (normalizeIngredientName i1.name = normalizeIngredientName i2.name →
      mergeIngredients [i1, i2] =
        [⟨normalizeIngredientName i1.name, i1.name,
          (combinedTwoSpec (i1.amount, i1.unit) (i2.amount, i2.unit)).1,
          (combinedTwoSpec (i1.amount, i1.unit) (i2.amount, i2.unit)).2,
          categorizeIngredient i1.name, [srcOf i1, srcOf i2]⟩]) ∧
    (normalizeIngredientName i1.name ≠ normalizeIngredientName i2.name →
      mergeIngredients [i1, i2] =
        [⟨normalizeIngredientName i1.name, i1.name,
          (combinedOneSpec (i1.amount, i1.unit)).1,
          (combinedOneSpec (i1.amount, i1.unit)).2,
          categorizeIngredient i1.name, [srcOf i1]⟩,
         ⟨normalizeIngredientName i2.name, i2.name,
          (combinedOneSpec (i2.amount, i2.unit)).1,
          (combinedOneSpec (i2.amount, i2.unit)).2,
          categorizeIngredient i2.name, [srcOf i2]⟩]) ∧
    mergeIngredients [⟨"ui", some 2, none, "Soep", 1⟩, ⟨"rode ui", some 1, none, "Curry", 2⟩] =
      [⟨"ui", "ui", some 3, none, "Groente & Fruit",
        [⟨"Soep", 1, some 2, none⟩, ⟨"Curry", 2, some 1, none⟩]⟩] ∧
    mergeIngredients [⟨"bloem", some 200, some "g", "Brood", 1⟩,
        ⟨"bloem", some 1, some "kop", "Taart", 2⟩] =
      [⟨"bloem", "bloem", some 200, some "g", "Overig",
        [⟨"Brood", 1, some 200, some "g"⟩, ⟨"Taart", 2, some 1, some "kop"⟩]⟩] := by
  refine ⟨?_, ?_, by decide, by decide⟩
  · intro h
    have hstep1 : mergeStep [] i1 = [(normalizeIngredientName i1.name, initialAcc i1)] := by
      simp [mergeStep, hasKey]
    have hbeq : (normalizeIngredientName i1.name == normalizeIngredientName i2.name) = true := by
      simp [h]
    have hstep2 : mergeStep [(normalizeIngredientName i1.name, initialAcc i1)] i2 =
        [(normalizeIngredientName i1.name, appendAcc i2 (initialAcc i1))] := by
      simp [mergeStep, hasKey, updateAssoc, ← h, hbeq]
    have hacc : appendAcc i2 (initialAcc i1) =
        ⟨normalizeIngredientName i1.name, i1.name,
         [(i1.amount, i1.unit), (i2.amount, i2.unit)],
         categorizeIngredient i1.name, [srcOf i1, srcOf i2]⟩ := by
      simp [appendAcc, initialAcc]
    simp only [mergeIngredients, List.foldl, hstep1, hstep2, List.map, hacc]
    rw [combineItem_two]
  · intro h
    have hstep1 : mergeStep [] i1 = [(normalizeIngredientName i1.name, initialAcc i1)] := by
      simp [mergeStep, hasKey]
    have hbeq : (normalizeIngredientName i1.name == normalizeIngredientName i2.name) = false := by
      simp [h]
    have hstep2 : mergeStep [(normalizeIngredientName i1.name, initialAcc i1)] i2 =
        [(normalizeIngredientName i1.name, initialAcc i1),
         (normalizeIngredientName i2.name, initialAcc i2)] := by
      simp [mergeStep, hasKey, hbeq]
    simp only [mergeIngredients, List.foldl, hstep1, hstep2, List.map]
    rw [show initialAcc i1 = ⟨normalizeIngredientName i1.name, i1.name,
        [(i1.amount, i1.unit)], categorizeIngredient i1.name, [srcOf i1]⟩ from rfl,
      show initialAcc i2 = ⟨normalizeIngredientName i2.name, i2.name,
        [(i2.amount, i2.unit)], categorizeIngredient i2.name, [srcOf i2]⟩ from rfl,
      combineItem_one, combineItem_one]

/-- C6 witness: the general two-line merge theorem instantiated on the ui
example, discharging the normalized-name hypothesis by computation. -/
theorem c6_merge_two_lines_witness :
    mergeIngredients [⟨"ui", some 2, none, "Soep", 1⟩, ⟨"rode ui", some 1, none, "Curry", 2⟩] =
      [⟨normalizeIngredientName "ui", "ui",
        (combinedTwoSpec (some 2, none) (some 1, none)).1,
        (combinedTwoSpec (some 2, none) (some 1, none)).2,
        categorizeIngredient "ui", [srcOf ⟨"ui", some 2, none, "Soep", 1⟩,
          srcOf ⟨"rode ui", some 1, none, "Curry", 2⟩]⟩] :=
  (c6_merge_two_lines ⟨"ui", some 2, none, "Soep", 1⟩
    ⟨"rode ui", some 1, none, "Curry", 2⟩).1 (by decide)

/-! ### Claim C7: categorization -/

/-- categorizeFrom yields Overig or one of the listed category names. -/
theorem categorizeFrom_mem (lowerName : List Char) :
    ∀ cats : List (String × List String),
      categorizeFrom lowerName cats = "Overig" ∨
      categorizeFrom lowerName cats ∈ cats.map Prod.fst := by
  intro cats
  induction cats with
  | nil => left; rfl
  | cons hd tl ih =>
    rcases hd with ⟨cat, keywords⟩
    simp only [categorizeFrom]
    by_cases hcat : (cat == "Overig") = true
    · simp only [hcat, if_true]
      rcases ih with h | h
      · left; exact h
      · right; exact List.mem_cons_of_mem _ h
    · simp only [Bool.not_eq_true] at hcat
      simp only [hcat, Bool.false_eq_true, if_false]
      by_cases hkw : (keywords.any (fun k => includesSub lowerName k.toList)) = true
      · simp only [hkw, if_true]
        right
        exact List.mem_cons_self _ _
      · simp only [Bool.not_eq_true] at hkw
        simp only [hkw, Bool.false_eq_true, if_false]
        rcases ih with h | h
        · left; exact h
        · right; exact List.mem_cons_of_mem _ h

/-- Membership after an in-place association update. -/
theorem mem_updateAssoc (key : String) (f : MergeAcc → MergeAcc) :
    ∀ m kv, kv ∈ updateAssoc key f m →
      kv ∈ m ∨ ∃ kv0 ∈ m, kv = (kv0.1, f kv0.2) := by
  intro m
  induction m with
  | nil => intro kv h; simp [updateAssoc] at h
  | cons hd tl ih =>
    rcases hd with ⟨k, v⟩
    intro kv h
    simp only [updateAssoc] at h
    by_cases hk : (k == key) = true
    · rw [if_pos hk] at h
      rcases List.mem_cons.mp h with h1 | h1
      · right; exact ⟨(k, v), List.mem_cons_self _ _, h1⟩
      · left; exact List.mem_cons_of_mem _ h1
    · rw [if_neg hk] at h
      rcases List.mem_cons.mp h with h1 | h1
      · left; rw [h1]; exact List.mem_cons_self _ _
      · rcases ih kv h1 with h2 | ⟨kv0, hkv0, h2⟩
        · left; exact List.mem_cons_of_mem _ h2
        · right; exact ⟨kv0, List.mem_cons_of_mem _ hkv0, h2⟩

/-- Every map entry after one merge step either keeps the category of an
entry already present or carries the category of the new line's original
name. -/
theorem mergeStep_category (m : List (String × MergeAcc)) (ing : TaggedIngredient) :
    ∀ kv ∈ mergeStep m ing,
      (∃ kv0 ∈ m, kv.2.category = kv0.2.category) ∨
      kv.2.category = categorizeIngredient ing.name := by
  intro kv h
  simp only [mergeStep] at h
  by_cases hk : hasKey (normalizeIngredientName ing.name) m = true
  · rw [if_pos hk] at h
    rcases mem_updateAssoc _ _ m kv h with h1 | ⟨kv0, hkv0, h1⟩
    · left; exact ⟨kv, h1, rfl⟩
    · left
      refine ⟨kv0, hkv0, ?_⟩
      rw [h1]
      rfl
  · rw [if_neg hk] at h
    rcases List.mem_append.mp h with h1 | h1
    · left; exact ⟨kv, h1, rfl⟩
    · right
      have : kv = (normalizeIngredientName ing.name, initialAcc ing) := by
        simpa using h1
      rw [this]
      rfl

/-- Every map entry after folding the whole line list either keeps the
category of a pre-existing entry or got categorized from some line's
original name. -/
theorem foldl_mergeStep_category (ings : List TaggedIngredient) :
    ∀ m, ∀ kv ∈ ings.foldl mergeStep m,
      (∃ kv0 ∈ m, kv.2.category = kv0.2.category) ∨
      ∃ ing ∈ ings, kv.2.category = categorizeIngredient ing.name := by
  induction ings with
  | nil =>
    intro m kv h
    left
    exact ⟨kv, h, rfl⟩
  | cons i is ih =>
    intro m kv h
    simp only [List.foldl] at h
    rcases ih (mergeStep m i) kv h with ⟨kv0, hkv0, hcat⟩ | ⟨ing, hing, hcat⟩
    · rcases mergeStep_category m i kv0 hkv0 with ⟨kv1, hkv1, hcat1⟩ | hcat1
      · left; exact ⟨kv1, hkv1, hcat.trans hcat1⟩
      · right; exact ⟨i, List.mem_cons_self _ _, hcat.trans hcat1⟩
    · right; exact ⟨ing, List.mem_cons_of_mem _ hing, hcat⟩

/-- Combining a group never changes its category. -/
theorem combineItem_category (a : MergeAcc) : (combineItem a).category = a.category := by
  simp only [combineItem]
  split <;> rfl

/-- C7. Every name is assigned exactly one of the 9 fixed category names
by scanning it case-insensitively against the keyword lists in fixed
order; every merged shopping-list item carries a category computed from
the original (not normalized) name of one of its contributing lines; and
the four reference inputs land in Vlees en Vis, Groente en Fruit, Kruiden
en Specerijen, and Overig respectively. -/
theorem c7_categorization :
    (∀ name : String, categorizeIngredient name ∈ categoryNames) ∧
    (∀ ings : List TaggedIngredient, ∀ item ∈ mergeIngredients ings,
      ∃ ing ∈ ings, item.category = categorizeIngredient ing.name) ∧
    categorizeIngredient "300 g kipfilet" = "Vlees & Vis" ∧
    categorizeIngredient "1 ui" = "Groente & Fruit" ∧
    categorizeIngredient "zout naar smaak" = "Kruiden & Specerijen" ∧
    categorizeIngredient "xyz-ingredient" = "Overig" := by
  refine ⟨?_, ?_, by decide, by decide, by decide, by decide⟩
  · intro name
    rcases categorizeFrom_mem (lowerList name.toList) ingredientCategories with h | h
    · rw [categorizeIngredient, h]
      decide
    · exact h
  · intro ings item hitem
    simp only [mergeIngredients, List.mem_map] at hitem
    obtain ⟨kv, hkv, hcomb⟩ := hitem
    rcases foldl_mergeStep_category ings [] kv hkv with ⟨kv0, hkv0, _⟩ | ⟨ing, hing, hcat⟩
    · simp at hkv0
    · exact ⟨ing, hing, by rw [← hcomb, combineItem_category, hcat]⟩

/-- C7 witness: the merged-item conjunct instantiated on a one-line list. -/
theorem c7_categorization_witness :
    ∃ ing ∈ [(⟨"1 ui", some 1, none, "Soep", 1⟩ : TaggedIngredient)],
      (⟨"1 ui", "1 ui", some 1, none, "Groente & Fruit",
        [⟨"Soep", 1, some 1, none⟩]⟩ : ShoppingItem).category =
        categorizeIngredient ing.name :=
  c7_categorization.2.1 [⟨"1 ui", some 1, none, "Soep", 1⟩]
    ⟨"1 ui", "1 ui", some 1, none, "Groente & Fruit", [⟨"Soep", 1, some 1, none⟩]⟩
    (by decide)

/-! ### GET /api/shopping (shopping.ts lines 181-313) -/

/-- A recipe-in-plan row of the shopping response. -/
structure PlanRecipe where
  id : Nat
  name : String
  date : String
  servings : Nat
deriving DecidableEq, Repr

/-- The shopping response: the flat merged item list, the category
grouping, and the contributing recipes. The generatedAt wall-clock
timestamp of the JSON payload is not part of the data the claims range
over and is omitted. -/
structure ShoppingResult where
  items : List ShoppingItem
  grouped : List (String × List ShoppingItem)
  recipes : List PlanRecipe
deriving DecidableEq, Repr

/-- JS Set.add: append if absent (insertion-ordered set). -/
def insertSet (l : List (Option Nat)) (x : Option Nat) : List (Option Nat) :=
  if l.contains x then l else l ++ [x]

/-- JS Map.set: overwrite in place if present (keeping insertion order),
else append. -/
def setAssocDate (m : List (String × Option Nat)) (k : String) (v : Option Nat) :
    List (String × Option Nat) :=
  if m.any (fun kv => kv.1 == k) then
    m.map (fun kv => if kv.1 == k then (kv.1, v) else kv)
  else m ++ [(k, v)]

/-- The fixed grouping order of the shopping handler (the same 9 names as
the taxonomy, restated in the source as categoryOrder). -/
def categoryOrder : List String :=
  ["Groente & Fruit", "Zuivel & Eieren", "Vlees & Vis", "Pasta, Rijst & Granen",
   "Conserven & Sauzen", "Kruiden & Specerijen", "Noten & Zaden", "Olie & Azijn",
   "Overig"]

/-- Push an item onto its category bucket; the handler seeds every fixed
category first, and falls back to creating the bucket if missing. -/
def addToGroup (g : List (String × List ShoppingItem)) (item : ShoppingItem) :
    List (String × List ShoppingItem) :=
  if g.any (fun kv => kv.1 == item.category) then
    g.map (fun kv => if kv.1 == item.category then (kv.1, kv.2 ++ [item]) else kv)
  else g ++ [(item.category, [item])]

/-- GET /api/shopping. Reads today's earliest suggestion row (the source
orders by createdAt without desc — ascending — and takes one row), all
week-plan rows, and the recipes they reference; resolves at most 7 dates
from today on; merges and groups the ingredients. The handler runs only
select statements, so the returned state is the input state. Date sorting
(localeCompare on YYYY-MM-DD strings) and the Dutch-collation item sorting
are modelled as code-point order: dates are digits and hyphens where the
two agree, and the claims depend only on the sort being deterministic. -/
def getShoppingList (today : String) (db : Db) : Db × ShoppingResult :=
  let todaySuggestion := earliestFor today db.suggestions
  let init : List (Option Nat) × List (String × Option Nat) :=
    match todaySuggestion with
    | some s => ([some s.recipeId], [(today, some s.recipeId)])
    | none => ([], [])
  let folded := db.weekPlan.foldl
    (fun acc plan =>
      (insertSet acc.1 plan.recipeId, setAssocDate acc.2 plan.date plan.recipeId))
    init
  let recipeIds := folded.1
  let dateToRecipeId := folded.2
  if recipeIds.isEmpty then (db, ⟨[], [], []⟩)
  else
    let recipeList := db.recipes.filter (fun r => recipeIds.contains (some r.id))
    let sortedDates :=
      (List.insertionSort (fun a b : String × Option Nat => strLeB a.1 b.1 = true)
        (dateToRecipeId.filter (fun kv => !(strLt kv.1.toList today.toList)))).take 7
    let resolved := sortedDates.foldl
      (fun acc kv =>
        match kv.2 with
        | none => acc
        | some rid =>
          match recipeList.find? (fun r => r.id == rid) with
          | none => acc
          | some recipe =>
            let servings := if recipe.defaultServings = 0 then 2 else recipe.defaultServings
            (acc.1 ++ [⟨recipe.id, recipe.name, kv.1, servings⟩],
             acc.2 ++ recipe.ingredients.map (fun ing =>
               ⟨ing.name, ing.amount, ing.unit, recipe.name, recipe.id⟩)))
      (([] : List PlanRecipe), ([] : List TaggedIngredient))
    let recipesInPlan := resolved.1
    let allIngredients := resolved.2
    let mergedIngredients := mergeIngredients allIngredients
    let seeded := categoryOrder.map (fun c => (c, ([] : List ShoppingItem)))
    let grouped := mergedIngredients.foldl addToGroup seeded
    let groupedSorted := grouped.map (fun kv =>
      (kv.1, List.insertionSort
        (fun a b : ShoppingItem => strLeB a.displayName b.displayName = true) kv.2))
    let groupedNonEmpty := groupedSorted.filter (fun kv => !kv.2.isEmpty)
    (db, ⟨mergedIngredients, groupedNonEmpty, recipesInPlan⟩)

/-! ### GET /api/weekplan (index.ts lines 50-219) and PUT /api/weekplan/:date -/

/-- One forecast day as the weather service returns it (todayData carries
an empty weatherTags list in the source). -/
structure ForecastDay where
  date : String
  temp : Int
  icon : String
  description : String
  weatherTags : List WeatherTag
deriving DecidableEq, Repr

/-- One resolved day of the week-plan response. The source emits a recipe
object (id, name, category, imageUrl) or null; the id pins it against the
catalog, so only the id is carried here. dayName is a pure function of the
date and is omitted. Only today's suggestion branch and the cleared
branches carry a status. -/
structure ResolvedDay where
  date : String
  temp : Int
  icon : String
  description : String
  status : Option SugStatus
  recipeId : Option Nat
deriving DecidableEq, Repr

/-- Request inputs of the week-plan resolver: today's date, the current
weather fields, the forecast, the season, the clock, and the Math.random
jitter drawn when scoring a recipe for a day (score + random()*10). -/
structure WeekEnv where
  today : String
  todayTemp : Int
  todayIcon : String
  todayDesc : String
  forecast : List ForecastDay
  currentSeason : Season
  now : Nat
  jitter : String → Nat → ℚ

/-- The ad hoc per-day score of the resolver's generation branch: +30 on a
season match, +15 per matching weather tag, plus the random jitter
(below 10) for tie-breaking. -/
def weekScore (env : WeekEnv) (day : ForecastDay) (r : Recipe) : ℚ :=
  (if r.seasons.contains env.currentSeason then 30 else 0) +
    15 * ((r.weatherTags.filter (fun t => day.weatherTags.contains t)).length : ℚ) +
    env.jitter day.date r.id

/-- Fold step keeping the best-so-far candidate, replaced only on a
strictly higher score. -/
def pickTopAux (best : Recipe × ℚ) : List (Recipe × ℚ) → Recipe × ℚ
  | [] => best
  | p :: rest => pickTopAux (if p.2 > best.2 then p else best) rest

/-- The head of the stable descending sort of the scored candidates
(scored.sort with comparator b.score - a.score, then index 0): the first
candidate attaining the maximal score, which this fold computes directly. -/
def pickTop : List (Recipe × ℚ) → Option Recipe
  | [] => none
  | p :: rest => some (pickTopAux p rest).1

/-- insert .. onConflictDoNothing on the unique date column. -/
def insertWeekPlanIgnore (wp : List WeekPlanEntry) (e : WeekPlanEntry) : List WeekPlanEntry :=
  if wp.any (fun w => w.date == e.date) then wp else wp ++ [e]

/-- The stored-plan and fresh-generation branches of the resolver loop
body; the source falls through to these when the today branch does not
emit. Cleared stored rows emit an empty day with the cached weather
fields as fallback; other stored rows push their recipe id into the used
set (even when the recipe no longer exists) and emit the resolved recipe;
days without a row score the unused catalog, persist the winner
ignore-on-conflict, and emit it. -/
def resolveStored (env : WeekEnv) (allRecipes : List Recipe) (db : Db) (used : List Nat)
    (out : List ResolvedDay) (day : ForecastDay) : Db × List Nat × List ResolvedDay :=
  match db.weekPlan.find? (fun w => w.date == day.date) with
  | some stored =>
    if stored.cleared then
      (db, used, out ++ [⟨day.date, stored.temp.getD day.temp, stored.icon.getD day.icon,
        stored.description.getD day.description, some .cleared, none⟩])
    else
      let used2 := match stored.recipeId with
        | some rid => used ++ [rid]
        | none => used
      let found := stored.recipeId.bind (fun rid => allRecipes.find? (fun r => r.id == rid))
      (db, used2, out ++ [⟨day.date, stored.temp.getD day.temp, stored.icon.getD day.icon,
        stored.description.getD day.description, none, found.map (fun r => r.id)⟩])
  | none =>
    let availableRecipes := allRecipes.filter (fun r => !(used.contains r.id))
    let scored := availableRecipes.map (fun r => (r, weekScore env day r))
    match pickTop scored with
    | some top =>
      ({ db with
          weekPlan := insertWeekPlanIgnore db.weekPlan
            ⟨day.date, some top.id, false, some day.temp, some day.icon,
             some day.description, env.now⟩ },
       used ++ [top.id],
       out ++ [⟨day.date, day.temp, day.icon, day.description, none, some top.id⟩])
    | none =>
      (db, used, out ++ [⟨day.date, day.temp, day.icon, day.description, none, none⟩])

/-- The resolver loop body: today with a suggestion row emits that row's
state (cleared suggestions empty the day; a suggestion whose recipe is
missing from the catalog falls through to the stored branch), and every
other case delegates to the stored-or-generate branches. -/
def resolveDay (env : WeekEnv) (allRecipes : List Recipe) (todaySug : Option Suggestion)
    (acc : Db × List Nat × List ResolvedDay) (day : ForecastDay) :
    Db × List Nat × List ResolvedDay :=
  let db := acc.1
  let used := acc.2.1
  let out := acc.2.2
  match (if day.date == env.today then todaySug else none) with
  | some sug =>
    if sug.status == SugStatus.cleared then
      (db, used, out ++ [⟨day.date, day.temp, day.icon, day.description, some .cleared, none⟩])
    else
      match allRecipes.find? (fun r => r.id == sug.recipeId) with
      | some r =>
        (db, used ++ [r.id],
         out ++ [⟨day.date, day.temp, day.icon, day.description, some sug.status, some r.id⟩])
      | none => resolveStored env allRecipes db used out day
  | none => resolveStored env allRecipes db used out day

/-- The 7-day window: today first, then the forecast days that are not
today, seven at most. -/
def weekDays (env : WeekEnv) : List ForecastDay :=
  (⟨env.today, env.todayTemp, env.todayIcon, env.todayDesc, []⟩ ::
    env.forecast.filter (fun d => !(d.date == env.today))).take 7

/-- GET /api/weekplan: read the catalog and today's latest suggestion row
once, then resolve the window left to right, accumulating used recipe ids
and persisting freshly generated days. -/
def resolveWeek (env : WeekEnv) (db : Db) : Db × List ResolvedDay :=
  let todaySug := latestFor env.today db.suggestions
  let result := (weekDays env).foldl (resolveDay env db.recipes todaySug) (db, [], [])
  (result.1, result.2.2)

/-- The reason blob of a manual pick. -/
def manualReason : String := "\x7b\x22manual\x22:true\x7d"

/-- PUT /api/weekplan/:date (manual pick). Validates the recipe, then for
today marks every suggestion row of the date rejected and inserts a fresh
accepted manual row; for any other date upserts the week-plan row, keeping
the cached weather fields of an existing row and defaulting them
(0, 01d, empty) on insert. No duplicate check against other days is made. -/
def setDayRecipe (env : GenEnv) (today : String) (db : Db) (date : String)
    (recipeId : Nat) : Db × Except AppError Recipe :=
  match db.recipes.find? (fun r => r.id == recipeId) with
  | none => (db, .error .RecipeNotFound)
  | some recipe =>
    if date == today then
      let rejected := db.suggestions.map (fun s =>
        if s.suggestedFor == date then { s with status := SugStatus.rejected } else s)
      ({ db with
          suggestions := rejected ++ [⟨db.nextSuggestionId, recipe.id, date, .accepted,
            manualReason, env.weatherJson, env.now⟩],
          nextSuggestionId := db.nextSuggestionId + 1 }, .ok recipe)
    else
      if db.weekPlan.any (fun w => w.date == date) then
        ({ db with
            weekPlan := db.weekPlan.map (fun w =>
              if w.date == date then { w with recipeId := some recipe.id, cleared := false }
              else w) }, .ok recipe)
      else
        ({ db with
            weekPlan := db.weekPlan ++
              [⟨date, some recipe.id, false, some 0, some "01d", some "", env.now⟩] },
         .ok recipe)

/-! ### Resolver invariants (claim C5) -/

/-- pickTopAux returns its starting candidate or a list element. -/
theorem pickTopAux_mem (l : List (Recipe × ℚ)) :
    ∀ best, pickTopAux best l = best ∨ pickTopAux best l ∈ l := by
  induction l with
  | nil => intro best; left; rfl
  | cons p rest ih =>
    intro best
    simp only [pickTopAux]
    rcases ih (if p.2 > best.2 then p else best) with h | h
    · rw [h]
      split
      · right; exact List.mem_cons_self _ _
      · left; rfl
    · right; exact List.mem_cons_of_mem _ h

/-- The recipe pickTop returns is one of the scored candidates. -/
theorem pickTop_mem (scored : List (Recipe × ℚ)) (r : Recipe)
    (h : pickTop scored = some r) : r ∈ scored.map Prod.fst := by
  cases scored with
  | nil => simp [pickTop] at h
  | cons p rest =>
    simp only [pickTop, Option.some.injEq] at h
    rcases pickTopAux_mem rest p with h2 | h2
    · rw [← h, h2]
      exact List.mem_map_of_mem _ (List.mem_cons_self _ _)
    · rw [← h]
      exact List.mem_map_of_mem _ (List.mem_cons_of_mem _ h2)

/-- Membership through an ignore-on-conflict insert. -/
theorem mem_insertWeekPlanIgnore (wp : List WeekPlanEntry) (e w : WeekPlanEntry)
    (h : w ∈ insertWeekPlanIgnore wp e) : w ∈ wp ∨ w = e := by
  simp only [insertWeekPlanIgnore] at h
  split at h
  · left; exact h
  · rcases List.mem_append.mp h with h1 | h1
    · left; exact h1
    · right; simpa using h1

/-- The stored-or-generate branches append exactly one entry for the day,
keep every previously used id, track the emitted recipe id in the used
set, and only ever add week-plan rows for the day being resolved. -/
theorem resolveStored_spec (env : WeekEnv) (rs : List Recipe) (db : Db) (used : List Nat)
    (out : List ResolvedDay) (day : ForecastDay) :
    ∃ e, (resolveStored env rs db used out day).2.2 = out ++ [e] ∧ e.date = day.date ∧
      (∀ x ∈ used, x ∈ (resolveStored env rs db used out day).2.1) ∧
      (∀ rid, e.recipeId = some rid → rid ∈ (resolveStored env rs db used out day).2.1) ∧
      (∀ w ∈ (resolveStored env rs db used out day).1.weekPlan,
        w ∈ db.weekPlan ∨ w.date = day.date) := by
  simp only [resolveStored]
  cases hf : db.weekPlan.find? (fun w => w.date == day.date) with
  | some stored =>
    by_cases hc : stored.cleared = true
    · simp only [hc, if_true]
      exact ⟨_, rfl, rfl, fun x hx => hx, fun rid h => by simp at h, fun w hw => Or.inl hw⟩
    · simp only [Bool.not_eq_true] at hc
      simp only [hc, Bool.false_eq_true, if_false]
      cases hrid : stored.recipeId with
      | none =>
        refine ⟨_, rfl, rfl, fun x hx => hx, ?_, fun w hw => Or.inl hw⟩
        intro rid h
        simp [hrid] at h
      | some rid0 =>
        refine ⟨_, rfl, rfl, fun x hx => List.mem_append_left _ hx, ?_, fun w hw => Or.inl hw⟩
        intro rid h
        simp only [hrid, Option.some_bind] at h ⊢
        cases hfind : rs.find? (fun r => r.id == rid0) with
        | none => rw [hfind] at h; simp at h
        | some r =>
          rw [hfind] at h
          simp only [Option.map_some', Option.some.injEq] at h
          have hr : r.id = rid0 := by
            have := List.find?_some hfind
            simpa using this
          rw [← h, hr]
          exact List.mem_append_right _ (by simp)
  | none =>
    cases hp : pickTop ((rs.filter (fun r => !(used.contains r.id))).map
        (fun r => (r, weekScore env day r))) with
    | some top =>
      refine ⟨_, rfl, rfl, fun x hx => List.mem_append_left _ hx, ?_, ?_⟩
      · intro rid h
        simp only [Option.some.injEq] at h
        rw [← h]
        exact List.mem_append_right _ (by simp)
      · intro w hw
        rcases mem_insertWeekPlanIgnore _ _ _ hw with h1 | h1
        · left; exact h1
        · right; rw [h1]
    | none =>
      exact ⟨_, rfl, rfl, fun x hx => hx, fun rid h => by simp at h, fun w hw => Or.inl hw⟩

/-- When a day has no stored row and skips the today branch, its entry is
freshly generated and never reuses an already used recipe id. -/
theorem resolveStored_gen (env : WeekEnv) (rs : List Recipe) (db : Db) (used : List Nat)
    (out : List ResolvedDay) (day : ForecastDay)
    (hf : db.weekPlan.find? (fun w => w.date == day.date) = none) :
    ∃ e, (resolveStored env rs db used out day).2.2 = out ++ [e] ∧ e.date = day.date ∧
      ∀ rid, e.recipeId = some rid → rid ∉ used := by
  simp only [resolveStored, hf]
  cases hp : pickTop ((rs.filter (fun r => !(used.contains r.id))).map
      (fun r => (r, weekScore env day r))) with
  | some top =>
    refine ⟨_, rfl, rfl, ?_⟩
    intro rid h
    simp only [Option.some.injEq] at h
    have hmem := pickTop_mem _ _ hp
    rw [List.map_map] at hmem
    have htop : top ∈ rs.filter (fun r => !(used.contains r.id)) := by
      simpa using hmem
    have hnc := (List.mem_filter.mp htop).2
    simp only [Bool.not_eq_eq_eq_not, Bool.not_true] at hnc
    intro hmem2
    rw [← h] at hmem2
    have : used.contains top.id = true := List.elem_eq_true_of_mem hmem2
    rw [this] at hnc
    exact Bool.true_eq_false.mp hnc
  | none =>
    exact ⟨_, rfl, rfl, fun rid h => by simp at h⟩

/-- The loop body appends exactly one entry for the day, keeps every
previously used id, tracks the emitted recipe id in the used set, and only
adds week-plan rows for the day being resolved. -/
theorem resolveDay_spec (env : WeekEnv) (rs : List Recipe) (ts : Option Suggestion)
    (acc : Db × List Nat × List ResolvedDay) (day : ForecastDay) :
    ∃ e, (resolveDay env rs ts acc day).2.2 = acc.2.2 ++ [e] ∧ e.date = day.date ∧
      (∀ x ∈ acc.2.1, x ∈ (resolveDay env rs ts acc day).2.1) ∧
      (∀ rid, e.recipeId = some rid → rid ∈ (resolveDay env rs ts acc day).2.1) ∧
      (∀ w ∈ (resolveDay env rs ts acc day).1.weekPlan,
        w ∈ acc.1.weekPlan ∨ w.date = day.date) := by
  rcases acc with ⟨db, used, out⟩
  simp only [resolveDay]
  cases hts : (if day.date == env.today then ts else none) with
  | none => exact resolveStored_spec env rs db used out day
  | some sug =>
    by_cases hcl : (sug.status == SugStatus.cleared) = true
    · simp only [hcl, if_true]
      exact ⟨_, rfl, rfl, fun x hx => hx, fun rid h => by simp at h, fun w hw => Or.inl hw⟩
    · simp only [Bool.not_eq_true] at hcl
      simp only [hcl, Bool.false_eq_true, if_false]
      cases hfind : rs.find? (fun r => r.id == sug.recipeId) with
      | none => exact resolveStored_spec env rs db used out day
      | some r =>
        refine ⟨_, rfl, rfl, fun x hx => List.mem_append_left _ hx, ?_, fun w hw => Or.inl hw⟩
        intro rid h
        simp only [Option.some.injEq] at h
        rw [← h]
        exact List.mem_append_right _ (by simp)

/-- Folding the loop only ever appends to the output. -/
theorem foldl_resolveDay_out_prefix (env : WeekEnv) (rs : List Recipe) (ts : Option Suggestion)
    (days : List ForecastDay) :
    ∀ acc, ∃ tail, (days.foldl (resolveDay env rs ts) acc).2.2 = acc.2.2 ++ tail := by
  induction days with
  | nil => intro acc; exact ⟨[], by simp⟩
  | cons d ds ih =>
    intro acc
    obtain ⟨e, he, -, -, -, -⟩ := resolveDay_spec env rs ts acc d
    obtain ⟨tail, ht⟩ := ih (resolveDay env rs ts acc d)
    refine ⟨[e] ++ tail, ?_⟩
    rw [List.foldl_cons, ht, he, List.append_assoc]

/-- Loop invariant: every emitted recipe id is in the used set. -/
theorem foldl_resolveDay_used (env : WeekEnv) (rs : List Recipe) (ts : Option Suggestion)
    (days : List ForecastDay) :
    ∀ acc, (∀ d ∈ acc.2.2, ∀ rid, d.recipeId = some rid → rid ∈ acc.2.1) →
      ∀ d ∈ (days.foldl (resolveDay env rs ts) acc).2.2, ∀ rid,
        d.recipeId = some rid → rid ∈ (days.foldl (resolveDay env rs ts) acc).2.1 := by
  induction days with
  | nil => intro acc h; exact h
  | cons dy ds ih =>
    intro acc hacc
    rw [List.foldl_cons]
    apply ih
    obtain ⟨e, he, -, hsup, hid, -⟩ := resolveDay_spec env rs ts acc dy
    intro d hd rid hrid
    rw [he] at hd
    rcases List.mem_append.mp hd with h1 | h1
    · exact hsup _ (hacc d h1 rid hrid)
    · have hde : d = e := by simpa using h1
      exact hid rid (hde ▸ hrid)

/-- Loop invariant: week-plan rows after the fold either pre-existed or
belong to one of the processed dates. -/
theorem foldl_resolveDay_weekPlan (env : WeekEnv) (rs : List Recipe) (ts : Option Suggestion)
    (days : List ForecastDay) :
    ∀ acc, ∀ w ∈ (days.foldl (resolveDay env rs ts) acc).1.weekPlan,
      w ∈ acc.1.weekPlan ∨ w.date ∈ days.map (fun x => x.date) := by
  induction days with
  | nil => intro acc w hw; left; exact hw
  | cons dy ds ih =>
    intro acc w hw
    rw [List.foldl_cons] at hw
    rcases ih (resolveDay env rs ts acc dy) w hw with h1 | h1
    · obtain ⟨-, -, -, -, -, hwp⟩ := resolveDay_spec env rs ts acc dy
      rcases hwp w h1 with h2 | h2
      · left; exact h2
      · right
        rw [List.map_cons, h2]
        exact List.mem_cons_self _ _
    · right; rw [List.map_cons]; exact List.mem_cons_of_mem _ h1

/-- C5 as amended. The left-to-right usedRecipeIds accumulation guarantees
that any day resolved by the fresh-generation branch (a non-today day with
no stored week-plan row, in a window of distinct dates) is assigned a
recipe id different from every recipe id assigned to an earlier day of the
window; the no-duplicates guarantee holds only for such generated days,
because stored rows and today's suggestion are emitted without consulting
usedRecipeIds. -/
theorem c5_amended_generated_days_fresh (env : WeekEnv) (db : Db)
    (ds1 ds2 : List ForecastDay) (d : ForecastDay)
    (hsplit : weekDays env = ds1 ++ d :: ds2)
    (hnotToday : d.date ≠ env.today)
    (hnodup : ((weekDays env).map (fun x => x.date)).Nodup)
    (hnostored : db.weekPlan.find? (fun w => w.date == d.date) = none) :
    ∃ e tail,
      (resolveWeek env db).2 =
        (ds1.foldl (resolveDay env db.recipes (latestFor env.today db.suggestions))
          (db, [], [])).2.2 ++ e :: tail ∧
      e.date = d.date ∧
      ∀ rid, e.recipeId = some rid →
        ∀ eOld ∈ (ds1.foldl (resolveDay env db.recipes (latestFor env.today db.suggestions))
            (db, [], [])).2.2,
          eOld.recipeId ≠ some rid := by
  set rs := db.recipes with hrs
  set ts := latestFor env.today db.suggestions with hts
  set accPre := ds1.foldl (resolveDay env rs ts) (db, [], []) with haccPre
  have hmapsplit : (weekDays env).map (fun x => x.date) =
      ds1.map (fun x => x.date) ++ d.date :: ds2.map (fun x => x.date) := by
    rw [hsplit]
    simp
  have hnodup2 := hnodup
  rw [hmapsplit] at hnodup2
  have hdisj := (List.nodup_append.mp hnodup2).2.2
  have hdnotin : d.date ∉ ds1.map (fun x => x.date) := by
    intro hmem
    exact (hdisj hmem) (List.mem_cons_self _ _)
  have hweek := foldl_resolveDay_weekPlan env rs ts ds1 (db, [], [])
  have hfindPre : accPre.1.weekPlan.find? (fun w => w.date == d.date) = none := by
    rw [List.find?_eq_none]
    intro w hw
    intro hbeq
    have hwd : w.date = d.date := by simpa using hbeq
    rcases hweek w hw with h1 | h1
    · have h2 := List.find?_eq_none.mp hnostored w h1
      exact h2 (by simpa using hwd)
    · rw [hwd] at h1
      exact hdnotin h1
  have hbeqToday : (d.date == env.today) = false := by simpa using hnotToday
  have hstep : resolveDay env rs ts accPre d =
      resolveStored env rs accPre.1 accPre.2.1 accPre.2.2 d := by
    simp [resolveDay, hbeqToday]
  obtain ⟨e, he, hdate, hfresh⟩ :=
    resolveStored_gen env rs accPre.1 accPre.2.1 accPre.2.2 d hfindPre
  have hainv := foldl_resolveDay_used env rs ts ds1 (db, [], [])
    (by intro d2 hd2; simp at hd2)
  obtain ⟨tail, htail⟩ :=
    foldl_resolveDay_out_prefix env rs ts ds2 (resolveDay env rs ts accPre d)
  refine ⟨e, tail, ?_, hdate, ?_⟩
  · simp only [resolveWeek]
    rw [← hrs, ← hts, hsplit, List.foldl_append, List.foldl_cons, ← haccPre]
    rw [htail, hstep, he, List.append_assoc]
    rfl
  · intro rid hrid eOld hOld hcontra
    have hin : rid ∈ accPre.2.1 := hainv eOld hOld rid hcontra
    exact hfresh rid hrid hin

/-- C5 amended witness: a two-day window (today plus one forecast day)
over an empty plan; the forecast day is freshly generated and its recipe
differs from everything emitted before it. -/
theorem c5_amended_generated_days_fresh_witness :
    ∃ e tail,
      (resolveWeek ⟨"2025-06-10", 20, "01d", "zon",
          [⟨"2025-06-11", 18, "02d", "bewolkt", []⟩], .zomer, 9, fun _ _ => 0⟩
        ⟨[⟨1, "r1", "pasta", [], [], [], 2, none⟩], [], [], [], 1, 1⟩).2 =
        ([⟨"2025-06-10", 20, "01d", "zon", ([] : List WeatherTag)⟩].foldl
          (resolveDay ⟨"2025-06-10", 20, "01d", "zon",
              [⟨"2025-06-11", 18, "02d", "bewolkt", []⟩], .zomer, 9, fun _ _ => 0⟩
            [⟨1, "r1", "pasta", [], [], [], 2, none⟩]
            (latestFor "2025-06-10" []))
          (⟨[⟨1, "r1", "pasta", [], [], [], 2, none⟩], [], [], [], 1, 1⟩, [], [])).2.2
          ++ e :: tail ∧
      e.date = "2025-06-11" ∧
      ∀ rid, e.recipeId = some rid →
        ∀ eOld ∈ ([⟨"2025-06-10", 20, "01d", "zon", ([] : List WeatherTag)⟩].foldl
            (resolveDay ⟨"2025-06-10", 20, "01d", "zon",
                [⟨"2025-06-11", 18, "02d", "bewolkt", []⟩], .zomer, 9, fun _ _ => 0⟩
              [⟨1, "r1", "pasta", [], [], [], 2, none⟩]
              (latestFor "2025-06-10" []))
            (⟨[⟨1, "r1", "pasta", [], [], [], 2, none⟩], [], [], [], 1, 1⟩, [], [])).2.2,
          eOld.recipeId ≠ some rid :=
  c5_amended_generated_days_fresh
    ⟨"2025-06-10", 20, "01d", "zon", [⟨"2025-06-11", 18, "02d", "bewolkt", []⟩],
     .zomer, 9, fun _ _ => 0⟩
    ⟨[⟨1, "r1", "pasta", [], [], [], 2, none⟩], [], [], [], 1, 1⟩
    [⟨"2025-06-10", 20, "01d", "zon", []⟩] []
    ⟨"2025-06-11", 18, "02d", "bewolkt", []⟩
    (by decide) (by decide) (by decide) (by decide)

/-- The 7-recipe catalog of the C5 counterexample. -/
def catalogSeven : List Recipe :=
  [⟨1, "r1", "pasta", [], [], [], 2, none⟩, ⟨2, "r2", "soep", [], [], [], 2, none⟩,
   ⟨3, "r3", "curry", [], [], [], 2, none⟩, ⟨4, "r4", "salade", [], [], [], 2, none⟩,
   ⟨5, "r5", "wraps", [], [], [], 2, none⟩, ⟨6, "r6", "pasta", [], [], [], 2, none⟩,
   ⟨7, "r7", "soep", [], [], [], 2, none⟩]

/-- State before the manual override: recipe 1 is today's pending
suggestion, the week-plan table is empty. -/
def dbBeforeOverride : Db :=
  ⟨catalogSeven, [⟨1, 1, "2025-06-10", .pending, "", "", 0⟩], [], [], 2, 1⟩

/-- Resolver inputs of the counterexample: today plus one forecast day. -/
def envOverride : WeekEnv :=
  ⟨"2025-06-10", 20, "01d", "zon", [⟨"2025-06-11", 18, "02d", "bewolkt", []⟩],
   .zomer, 0, fun _ _ => 0⟩

/-- C5 counterexample. With 7 distinct recipes in the catalog, recipe 1
pending as today's suggestion and the manual setDayRecipe override placing
the same recipe 1 on tomorrow, the resolved window assigns recipe id 1 to
two different dates: the override path never checks the ids used elsewhere
in the window, refuting the claimed invariant. -/
theorem c5_counterexample :
    (catalogSeven.map (fun r => r.id)).Nodup ∧ catalogSeven.length = 7 ∧
    (setDayRecipe ⟨0, .zomer, [], "w", 0⟩ "2025-06-10" dbBeforeOverride "2025-06-11" 1).2 =
      .ok ⟨1, "r1", "pasta", [], [], [], 2, none⟩ ∧
    ((resolveWeek envOverride
        (setDayRecipe ⟨0, .zomer, [], "w", 0⟩ "2025-06-10" dbBeforeOverride "2025-06-11" 1).1).2.map
      (fun d => (d.date, d.recipeId))) =
      [("2025-06-10", some 1), ("2025-06-11", some 1)] ∧
    ("2025-06-10" : String) ≠ "2025-06-11" :=
  ⟨by decide, by decide, rfl, by decide, by decide⟩

/-! ### Claim C3: which suggestion row the consumers resolve today to -/

/-- Two suggestion rows for today: the older one (createdAt 0) is a
rejected suggestion of recipe 10, the newer one (createdAt 5) an accepted
suggestion of recipe 20. -/
def dbTwoRows : Db :=
  ⟨[⟨10, "oud", "soep", [], [], [], 2, none⟩, ⟨20, "nieuw", "pasta", [], [], [], 2, none⟩],
   [⟨1, 10, "2025-06-10", .rejected, "", "", 0⟩, ⟨2, 20, "2025-06-10", .accepted, "", "", 5⟩],
   [], [], 3, 1⟩

/-- Resolver inputs for the two-row state: a window of just today. -/
def envTwoRows : WeekEnv :=
  ⟨"2025-06-10", 20, "01d", "zon", [], .zomer, 0, fun _ _ => 0⟩

/-- C3 evidence. On the two-row state the week-plan resolver emits recipe
20 for today — the row with the greatest createdAt, as the claim says —
but the shopping aggregator resolves today to recipe 10: its select orders
by createdAt without desc (drizzle ascending default) and takes the first
row, the oldest one, even though that row was rejected. The two consumers
disagree, so the most recently created row is not authoritative for the
shopping aggregator. -/
theorem c3_consumers_disagree_on_latest :
    latestFor "2025-06-10" dbTwoRows.suggestions =
      some ⟨2, 20, "2025-06-10", .accepted, "", "", 5⟩ ∧
    earliestFor "2025-06-10" dbTwoRows.suggestions =
      some ⟨1, 10, "2025-06-10", .rejected, "", "", 0⟩ ∧
    ((resolveWeek envTwoRows dbTwoRows).2.map (fun d => (d.date, d.recipeId, d.status))) =
      [("2025-06-10", some 20, some .accepted)] ∧
    (getShoppingList "2025-06-10" dbTwoRows).2.recipes =
      [⟨10, "oud", "2025-06-10", 2⟩] ∧
    (10 : Nat) ≠ 20 :=
  ⟨by decide, by decide, by decide, by decide, by decide⟩

/-! ### Claim C10: the shopping read is pure -/

/-- C10. Computing the shopping list is read-only: for every state the
returned state equals the input state (the handler runs only selects) and
an immediately repeated call returns the same items, grouping and recipes;
by contrast the week-plan read does persist entries — on a one-recipe
catalog with an empty plan, resolving the window changes the state by
inserting a week-plan row. -/
theorem c10_shopping_read_only :
    (∀ (today : String) (db : Db),
      (getShoppingList today db).1 = db ∧
      (getShoppingList today (getShoppingList today db).1).2 =
        (getShoppingList today db).2) ∧
    (resolveWeek ⟨"2025-06-10", 20, "01d", "zon", [], .zomer, 77, fun _ _ => 0⟩
        ⟨[⟨1, "r1", "pasta", [], [], [], 2, none⟩], [], [], [], 1, 1⟩).1 ≠
      ⟨[⟨1, "r1", "pasta", [], [], [], 2, none⟩], [], [], [], 1, 1⟩ := by
  refine ⟨?_, by decide⟩
  intro today db
  have h1 : (getShoppingList today db).1 = db := by
    simp only [getShoppingList]
    split <;> rfl
  exact ⟨h1, by rw [h1]⟩

end Recipes
